import Mathlib

/-!
Shallow embedding of the live event tracking and alerting engine:
the tracker service (poll cycle per-match processing, finished-match
detection, retention enforcement), the per-league target configuration,
the odds-history ledger, and the telegram delivery queue, together with
theorems settling the specification claims.
-/

namespace FifaBet

/-- Match lifecycle status, `status` column of the `matches` table. -/
inductive MatchStatus
  | live
  | finished
deriving DecidableEq, Repr

/-- One row of the `matches` table (timestamps abstracted to `Nat`,
goal-line/odds values as exact rationals). -/
structure MatchRow where
  match_id : String
  bet365_id : Option String
  league_id : Nat
  home_team : String
  away_team : String
  detection_time : Nat
  detected_odds : Option ℚ
  current_goal_line : Option ℚ
  current_score : Option String
  status : MatchStatus
  final_score_home : Option Int
  final_score_away : Option Int
  match_end_time : Option Nat
  alert_sent : Bool
  result_alert_sent : Bool
  touched_15 : Bool
deriving DecidableEq, Repr

/-- One row of the `odds_history` table, with
`UNIQUE(match_id, handicap, odds_value)`. -/
structure OddsRow where
  match_id : String
  handicap : ℚ
  odds_value : ℚ
  add_time : Nat
deriving DecidableEq, Repr

/-- The persistent store: the `matches` table and the `odds_history`
table, each in rowid (insertion) order. -/
structure DBState where
  matchesTab : List MatchRow
  odds_history : List OddsRow
deriving DecidableEq, Repr

/-- The empty database. -/
def initDB : DBState := ⟨[], []⟩

/-- `SELECT * FROM matches WHERE match_id = ?` (first row). -/
def getMatch (s : DBState) (id : String) : Option MatchRow :=
  s.matchesTab.find? (fun m => m.match_id = id)

/-- `UPDATE matches SET ... WHERE match_id = ?`: apply `f` to every row
with the given `match_id`. -/
def updRow (id : String) (f : MatchRow → MatchRow) (s : DBState) : DBState :=
  { s with matchesTab := s.matchesTab.map (fun m => if m.match_id = id then f m else m) }

/-- The `match_id` column is `UNIQUE`. -/
abbrev NodupIds (s : DBState) : Prop :=
  (s.matchesTab.map (fun m => m.match_id)).Nodup

/-! ## Configuration (src/config/index.ts) -/

/-- `config.targetGoalLines`: the per-league target goal line map
(2.5, 1.5, 3.5, 3.5 written as exact rationals). -/
def targetGoalLines : List (Nat × ℚ) :=
  [(23114, Rat.divInt 5 2), (37298, Rat.divInt 3 2),
   (38439, Rat.divInt 7 2), (22614, Rat.divInt 7 2)]

/-- `config.getTargetGoalLine`: target for a league, defaulting to 1.5
when the league has no configured entry. -/
def getTargetGoalLine (leagueId : Nat) : ℚ :=
  match targetGoalLines.lookup leagueId with
  | some v => v
  | none => Rat.divInt 3 2

/-! ## JS-style parsing helpers -/

/-- Numeric value of a list of decimal digit characters. -/
def digitsVal (cs : List Char) : Nat :=
  cs.foldl (fun a c => 10 * a + (c.toNat - 48)) 0

/-- Whitespace trimming on a character list (`String.trim` of JS). -/
def trimChars (cs : List Char) : List Char :=
  ((cs.dropWhile Char.isWhitespace).reverse.dropWhile Char.isWhitespace).reverse

/-- `parseInt(s.trim(), 10)` on a character list: optional sign followed
by at least one leading digit; `none` models `NaN`. -/
def parseIntChars (cs0 : List Char) : Option Int :=
  let cs := trimChars cs0
  let signAndRest : Int × List Char :=
    match cs with
    | '-' :: r => (-1, r)
    | '+' :: r => (1, r)
    | r => (1, r)
  let ds := signAndRest.2.takeWhile Char.isDigit
  if ds.isEmpty then none else some (signAndRest.1 * (digitsVal ds : Int))

/-- `parseInt(s.trim(), 10)` as used on score fragments. -/
def parseIntJS (s : String) : Option Int :=
  parseIntChars s.toList

/-- `parseFloat(s)` on odds strings: optional sign, integer digits,
optional fractional digits; `none` models `NaN`. The value is the exact
rational `± mantissa / 10 ^ fracLen`. -/
def parseFloatJS (s : String) : Option ℚ :=
  let cs := trimChars s.toList
  let signAndRest : Int × List Char :=
    match cs with
    | '-' :: r => (-1, r)
    | '+' :: r => (1, r)
    | r => (1, r)
  let intPart := signAndRest.2.takeWhile Char.isDigit
  let rest := signAndRest.2.dropWhile Char.isDigit
  let fracPart : List Char :=
    match rest with
    | '.' :: r => r.takeWhile Char.isDigit
    | _ => []
  if intPart.isEmpty ∧ fracPart.isEmpty then none
  else
    some (Rat.divInt (signAndRest.1 * (digitsVal (intPart ++ fracPart) : Int))
      ((10 : Int) ^ fracPart.length))

/-- JS truthiness of a nullable string column (`null` and `''` are falsy). -/
def truthyS : Option String → Bool
  | none => false
  | some s => !(s == "")

/-- `s.split('-')` of JS: split the character list at every dash. -/
def splitDashAux : List Char → List Char → List (List Char)
  | [], acc => [acc.reverse]
  | c :: rest, acc =>
    if c = '-' then acc.reverse :: splitDashAux rest []
    else splitDashAux rest (c :: acc)

/-- `s.split('-')` of JS on a string. -/
def splitDash (s : String) : List (List Char) :=
  splitDashAux s.toList []

/-- `current_score.split('-').map(s => parseInt(s.trim(), 10))`
destructured into the first two components (`undefined` parses to `NaN`,
modelled as `none`). -/
def parseScorePair (sc : String) : Option Int × Option Int :=
  let parts := splitDash sc
  (match parts.get? 0 with
   | some p => parseIntChars p
   | none => none,
   match parts.get? 1 with
   | some p => parseIntChars p
   | none => none)

/-! ## Effects and feed inputs -/

/-- A notification accepted by the telegram delivery queue. -/
inductive Effect
  | detection (id : String)
  | completion (id : String)
deriving DecidableEq, Repr

/-- A normalized goal-line observation (`goalLineResult` from the
resolver chain, primary or prematch fallback). -/
structure GoalLineResult where
  handicap : ℚ
  overOdds : String
  underOdds : String
  score : String
deriving DecidableEq, Repr

/-- The per-match feed item handed to `processMatchWithGoalLine`. -/
structure MatchInput where
  id : String
  bet365Id : String
  leagueId : Nat
  leagueName : String
  homeTeam : String
  awayTeam : String
  score : String
deriving DecidableEq, Repr

/-- Number of detection notifications for a given id in an effect
trace. -/
def countDet (id : String) (effs : List Effect) : Nat :=
  (effs.filter (fun e => e = Effect.detection id)).length

/-- Number of completion notifications for a given id in an effect
trace. -/
def countComp (id : String) (effs : List Effect) : Nat :=
  (effs.filter (fun e => e = Effect.completion id)).length

/-! ## Tracker state updates (tracker.service) -/

/-- Row update of `sendTargetDetectionAlert`:
`SET alert_sent = 1, touched_15 = 1`. -/
def alertUpd (r : MatchRow) : MatchRow :=
  { r with alert_sent := true, touched_15 := true }

/-- Row update of `markMatchAsTouchedTarget`. -/
def touchUpd (handicap : ℚ) (score : String) (r : MatchRow) : MatchRow :=
  { r with detected_odds := some handicap, current_goal_line := some handicap,
           current_score := some score, touched_15 := true }

/-- Row update of `updateMatchGoalLine`. -/
def goalScoreUpd (handicap : ℚ) (score : String) (r : MatchRow) : MatchRow :=
  { r with detected_odds := some handicap, current_goal_line := some handicap,
           current_score := some score }

/-- Row update of `updateMatchScore`. -/
def scoreUpd (score : String) (r : MatchRow) : MatchRow :=
  { r with current_score := some score }

/-- Row update of `updateMatchScoreAndGoalLine`. -/
def scoreGoalUpd (score : String) (goalLine : ℚ) (r : MatchRow) : MatchRow :=
  { r with current_score := some score, current_goal_line := some goalLine }

/-- `sendTargetDetectionAlert`: the telegram hand-off succeeds exactly
when the bot and chat id are configured (`cfg`); on success the message
is enqueued and `alert_sent`/`touched_15` are set. -/
def sendTargetDetectionAlert (cfg : Bool) (id : String) (s : DBState) : DBState × List Effect :=
  if cfg then
    (updRow id alertUpd s, [Effect.detection id])
  else (s, [])

/-- `markMatchAsTouchedTarget`. -/
def markMatchAsTouchedTarget (id : String) (handicap : ℚ) (score : String)
    (s : DBState) : DBState :=
  updRow id (touchUpd handicap score) s

/-- A freshly inserted match row (both INSERT statements share this shape,
differing only in `detected_odds` and `touched_15`). -/
def newRow (now : Nat) (mi : MatchInput) (detected : Option ℚ) (touched : Bool) : MatchRow :=
  { match_id := mi.id, bet365_id := some mi.bet365Id, league_id := mi.leagueId,
    home_team := mi.homeTeam, away_team := mi.awayTeam, detection_time := now,
    detected_odds := detected, current_goal_line := detected,
    current_score := some mi.score, status := MatchStatus.live,
    final_score_home := none, final_score_away := none, match_end_time := none,
    alert_sent := false, result_alert_sent := false, touched_15 := touched }

/-- `INSERT INTO matches ...` (appends in rowid order). -/
def insertMatch (r : MatchRow) (s : DBState) : DBState :=
  { s with matchesTab := s.matchesTab ++ [r] }

/-- `handleTargetGoalLineDetection`: insert with `touched_15 = 1`, re-read
the saved row and send the detection alert. -/
def handleTargetGoalLineDetection (cfg : Bool) (now : Nat) (mi : MatchInput)
    (glr : GoalLineResult) (s : DBState) : DBState × List Effect :=
  let s1 := insertMatch (newRow now mi (some glr.handicap) true) s
  match getMatch s1 mi.id with
  | some _ => sendTargetDetectionAlert cfg mi.id s1
  | none => (s1, [])

/-- `saveMatchWithGoalLine`: insert with `touched_15 = 0`. -/
def saveMatchWithGoalLine (now : Nat) (mi : MatchInput) (handicap : Option ℚ)
    (s : DBState) : DBState :=
  insertMatch (newRow now mi handicap false) s

/-- `updateMatchGoalLine` (match never touched the target). -/
def updateMatchGoalLine (id : String) (handicap : ℚ) (score : String)
    (s : DBState) : DBState :=
  updRow id (goalScoreUpd handicap score) s

/-- `updateMatchScore` (no goal-line data available). -/
def updateMatchScore (id : String) (score : String) (s : DBState) : DBState :=
  updRow id (scoreUpd score) s

/-- `updateMatchScoreAndGoalLine` (preserves `detected_odds`). -/
def updateMatchScoreAndGoalLine (id : String) (score : String) (goalLine : ℚ)
    (s : DBState) : DBState :=
  updRow id (scoreGoalUpd score goalLine) s

/-- `saveGoalLineHistory`: `INSERT OR IGNORE INTO odds_history` keyed by
`UNIQUE(match_id, handicap, odds_value)`; the stored odds value is
`parseFloat(overOdds) || 0`. -/
def saveGoalLineHistory (id : String) (handicap : ℚ) (overOdds : String) (now : Nat)
    (s : DBState) : DBState :=
  let ov := (parseFloatJS overOdds).getD 0
  if s.odds_history.any (fun r =>
      decide (r.match_id = id ∧ r.handicap = handicap ∧ r.odds_value = ov)) then s
  else { s with odds_history := s.odds_history ++ [⟨id, handicap, ov, now⟩] }

/-- `processMatchWithGoalLine`: the per-match step of one poll cycle.
`obs = none` is the resolver's Unavailable outcome (primary and fallback
both failed). -/
def processMatchWithGoalLine (cfg : Bool) (now : Nat) (mi : MatchInput)
    (obs : Option GoalLineResult) (s : DBState) : DBState × List Effect :=
  let existing := getMatch s mi.id
  let target := getTargetGoalLine mi.leagueId
  match obs with
  | some glr =>
    let step :=
      if glr.handicap = target then
        match existing with
        | none => handleTargetGoalLineDetection cfg now mi glr s
        | some ex =>
          if ex.alert_sent = false then
            sendTargetDetectionAlert cfg mi.id
              (markMatchAsTouchedTarget mi.id glr.handicap mi.score s)
          else
            (updateMatchScoreAndGoalLine mi.id mi.score glr.handicap s, [])
      else
        match existing with
        | none => (saveMatchWithGoalLine now mi (some glr.handicap) s, [])
        | some ex =>
          if ex.touched_15 then
            (updateMatchScoreAndGoalLine mi.id mi.score glr.handicap s, [])
          else
            (updateMatchGoalLine mi.id glr.handicap mi.score s, [])
    (saveGoalLineHistory mi.id glr.handicap glr.overOdds now step.1, step.2)
  | none =>
    match existing with
    | none => (saveMatchWithGoalLine now mi none s, [])
    | some _ => (updateMatchScore mi.id mi.score s, [])

/-! ## Finished-match detection -/

/-- Environment of a finished-match pass: the result lookup
(`getMatchResult(bet365_id)?.ss`, `none` when the lookup fails or has no
score) and the wall clock. -/
structure FinishEnv where
  remote : String → Option String
  now : Nat

/-- The componentwise parse of `current_score` (stage (a) of final score
resolution); both sides `none` when the column is falsy. -/
def parsedFromCurrent (m : MatchRow) : Option Int × Option Int :=
  if truthyS m.current_score then parseScorePair (m.current_score.getD "")
  else (none, none)

/-- Final score resolution of `markMatchAsFinished`: parse
`current_score` componentwise, and when either side is missing try the
remote result, accepted only when both sides parse. -/
def finishScores (env : FinishEnv) (m : MatchRow) : Option Int × Option Int :=
  let p0 := parsedFromCurrent m
  if p0.1 = none ∨ p0.2 = none then
    if truthyS m.bet365_id then
      match env.remote (m.bet365_id.getD "") with
      | some ss =>
        let p1 := parseScorePair ss
        if p1.1 ≠ none ∧ p1.2 ≠ none then p1 else p0
      | none => p0
    else p0
  else p0

/-- Whether `markMatchAsFinished` performs the remote result lookup. -/
def finishLookedUp (m : MatchRow) : Bool :=
  let p0 := parsedFromCurrent m
  decide ((p0.1 = none ∨ p0.2 = none) ∧ truthyS m.bet365_id = true)

/-- The `scoreString` written through `COALESCE(current_score, ?)`. -/
def scoreStringOf : Option Int × Option Int → Option String
  | (some h, some a) => some (toString h ++ "-" ++ toString a)
  | _ => none

/-- The `UPDATE matches SET status = 'finished', ...` row function of
`markMatchAsFinished` (final scores resolved from the snapshot row `m`,
`current_score` filled by `COALESCE`). -/
def finishUpd (env : FinishEnv) (m : MatchRow) (r : MatchRow) : MatchRow :=
  { r with status := MatchStatus.finished,
           final_score_home := (finishScores env m).1,
           final_score_away := (finishScores env m).2,
           current_score := r.current_score.or (scoreStringOf (finishScores env m)),
           match_end_time := some env.now }

/-- `markMatchAsFinished`, called with the snapshot row `m` of a live
match that vanished from the active set. -/
def markMatchAsFinished (cfg : Bool) (env : FinishEnv) (m : MatchRow)
    (s : DBState) : DBState × List Effect :=
  let s1 := updRow m.match_id (finishUpd env m) s
  if m.result_alert_sent = false then
    match getMatch s1 m.match_id with
    | some _ =>
      if cfg then
        (updRow m.match_id (fun r => { r with result_alert_sent := true }) s1,
         [Effect.completion m.match_id])
      else (s1, [])
    | none => (s1, [])
  else (s1, [])

/-- The loop body of `checkFinishedMatchesV2` over the snapshot of live
rows taken at the start of the pass. -/
def finishFold (cfg : Bool) (env : FinishEnv) (activeIds : List String) :
    List MatchRow → DBState → DBState × List Effect
  | [], s => (s, [])
  | m :: rest, s =>
    if m.match_id ∈ activeIds then finishFold cfg env activeIds rest s
    else
      let st := markMatchAsFinished cfg env m s
      let rst := finishFold cfg env activeIds rest st.1
      (rst.1, st.2 ++ rst.2)

/-- `checkFinishedMatchesV2`: every stored live match absent from the
current active set is marked finished. -/
def checkFinishedMatchesV2 (cfg : Bool) (env : FinishEnv) (activeIds : List String)
    (s : DBState) : DBState × List Effect :=
  finishFold cfg env activeIds
    (s.matchesTab.filter (fun m => decide (m.status = MatchStatus.live))) s

/-! ## Retention enforcement -/

/-- `ORDER BY detection_time ASC`. -/
def detTimeLE (a b : MatchRow) : Bool := a.detection_time ≤ b.detection_time

/-- `enforceMatchLimit`: when over the limit, select the
`total - maxMatches` oldest finished rows by detection time, delete their
odds-history rows first and then the match rows. -/
def enforceMatchLimit (maxM : Nat) (s : DBState) : DBState :=
  if s.matchesTab.length ≤ maxM then s
  else
    let toDelete := s.matchesTab.length - maxM
    let victims :=
      ((((s.matchesTab.filter (fun m => decide (m.status = MatchStatus.finished))).mergeSort
          detTimeLE).take toDelete).map (fun m => m.match_id))
    if victims.isEmpty then s
    else
      { matchesTab := s.matchesTab.filter (fun m => decide (¬ m.match_id ∈ victims)),
        odds_history := s.odds_history.filter (fun h => decide (¬ h.match_id ∈ victims)) }

/-- The `matchIds` selected for deletion by `enforceMatchLimit`: the
`total - maxMatches` oldest finished matches by detection time. -/
def victimsOf (maxM : Nat) (s : DBState) : List String :=
  ((((s.matchesTab.filter (fun m => decide (m.status = MatchStatus.finished))).mergeSort
      detTimeLE).take (s.matchesTab.length - maxM)).map (fun m => m.match_id))

/-! ## Backfill passes (administrative triggers) -/

/-- Row update of the score backfill. -/
def backfillScoreUpd (ss : String) (h a : Int) (r : MatchRow) : MatchRow :=
  { r with final_score_home := some h, final_score_away := some a,
           current_score := r.current_score.or (some ss) }

/-- `backfillMissingScores` loop body over its selected rows. -/
def backfillScoresFold (remote : String → Option String) :
    List MatchRow → DBState → DBState
  | [], s => s
  | m :: rest, s =>
    let s1 :=
      if truthyS m.bet365_id then
        match remote (m.bet365_id.getD "") with
        | some ss =>
          let p := parseScorePair ss
          match p.1, p.2 with
          | some h, some a => updRow m.match_id (backfillScoreUpd ss h a) s
          | _, _ => s
        | none => s
      else s
    backfillScoresFold remote rest s1

/-- `backfillMissingScores`: finished matches missing a final score. -/
def backfillMissingScores (remote : String → Option String) (s : DBState) : DBState :=
  backfillScoresFold remote
    (s.matchesTab.filter (fun m =>
      decide (m.status = MatchStatus.finished ∧
        (m.final_score_home = none ∨ m.final_score_away = none)))) s

/-- Extracted historical goal-line data used by the goal-line backfill. -/
structure GoalLineBackfill where
  handicap : ℚ
  touched15 : Bool
deriving DecidableEq, Repr

/-- Row update of the goal-line backfill. -/
def backfillGLUpd (g : GoalLineBackfill) (r : MatchRow) : MatchRow :=
  { r with detected_odds := some g.handicap, current_goal_line := some g.handicap,
           touched_15 := g.touched15 }

/-- `backfillMissingGoalLines` loop body. -/
def backfillGLFold (oracle : String → Option GoalLineBackfill) :
    List MatchRow → DBState → DBState
  | [], s => s
  | m :: rest, s =>
    let s1 :=
      match oracle m.match_id with
      | some g => updRow m.match_id (backfillGLUpd g) s
      | none => s
    backfillGLFold oracle rest s1

/-- `backfillMissingGoalLines`: matches with `detected_odds IS NULL`,
`ORDER BY id DESC LIMIT 200`. -/
def backfillMissingGoalLines (oracle : String → Option GoalLineBackfill)
    (s : DBState) : DBState :=
  backfillGLFold oracle
    (((s.matchesTab.filter (fun m => decide (m.detected_odds = none))).reverse).take 200) s

/-! ## Engine operations -/

/-- An operation of the engine against the store. -/
inductive Op
  | observe (now : Nat) (mi : MatchInput) (obs : Option GoalLineResult)
  | finishCheck (env : FinishEnv) (activeIds : List String)
  | enforce (maxM : Nat)
  | backfillScores (remote : String → Option String)
  | backfillGoalLines (oracle : String → Option GoalLineBackfill)

/-- Run one operation. -/
def applyOp (cfg : Bool) (op : Op) (s : DBState) : DBState × List Effect :=
  match op with
  | Op.observe now mi obs => processMatchWithGoalLine cfg now mi obs s
  | Op.finishCheck env activeIds => checkFinishedMatchesV2 cfg env activeIds s
  | Op.enforce maxM => (enforceMatchLimit maxM s, [])
  | Op.backfillScores remote => (backfillMissingScores remote s, [])
  | Op.backfillGoalLines oracle => (backfillMissingGoalLines oracle s, [])

/-- Run a sequence of operations, collecting emitted notifications. -/
def applyOps (cfg : Bool) : List Op → DBState → DBState × List Effect
  | [], s => (s, [])
  | op :: rest, s =>
    let p := applyOp cfg op s
    let q := applyOps cfg rest p.1
    (q.1, p.2 ++ q.2)

/-- Operations that do not evict stored rows (an eviction ends the
lifetime of a record). -/
def Op.noEvict : Op → Prop
  | Op.enforce _ => False
  | _ => True

/-! ## Telegram delivery queue (telegram.service) -/

namespace Telegram

/-- `maxRetries` of the telegram service. -/
def maxRetries : Nat := 3

/-- `retryDelay` (ms) of the telegram service. -/
def retryDelay : Nat := 1000

/-- A queued message: payload identity and its `retries` counter. -/
structure PendingMsg where
  msg : Nat
  retries : Nat
deriving DecidableEq, Repr

/-- One delivery attempt as observed by the drain loop. -/
structure Attempt where
  msg : Nat
  retriesBefore : Nat
  delivered : Bool
  requeued : Bool
  backoffDelay : Option Nat
deriving DecidableEq, Repr

/-- Termination measure: residual retry budget of the queue. -/
def qWeight (q : List PendingMsg) : Nat :=
  (q.map (fun i => 4 - i.retries)).sum

/-- The `processQueue` drain loop: shift the head, attempt delivery
(`send` indexed by a global attempt counter `k`); on failure, if
`retries < maxRetries` increment `retries`, push to the tail and back off
by `retryDelay * retries`, else drop. Returns the attempt trace. -/
def processQueue (send : Nat → Bool) (k : Nat) (q : List PendingMsg) : List Attempt :=
  match q with
  | [] => []
  | item :: rest =>
    if send k then
      ⟨item.msg, item.retries, true, false, none⟩ :: processQueue send (k+1) rest
    else if h : item.retries < maxRetries then
      ⟨item.msg, item.retries, false, true, some (retryDelay * (item.retries + 1))⟩ ::
        processQueue send (k+1) (rest ++ [⟨item.msg, item.retries + 1⟩])
    else
      ⟨item.msg, item.retries, false, false, none⟩ :: processQueue send (k+1) rest
termination_by 2 * qWeight q + q.length
decreasing_by
  · simp [qWeight]
    omega
  · simp [qWeight, maxRetries] at h ⊢
    omega
  · simp [qWeight]
    omega

end Telegram

/-! ## Invariants -/

/-- Row invariant maintained by the tracker: a touched row keeps its
detection value at its league's configured target, and — when the
telegram gateway is configured (`cfg`) — its detection alert has been
recorded. -/
abbrev rowInv (cfg : Bool) (m : MatchRow) : Prop :=
  m.touched_15 = true →
    m.detected_odds = some (getTargetGoalLine m.league_id) ∧
    (cfg = true → m.alert_sent = true)

/-- Store-wide tracker invariant. -/
def Inv (cfg : Bool) (s : DBState) : Prop :=
  ∀ m ∈ s.matchesTab, rowInv cfg m

/-- A sequence of observations of one fixed match (time, progress score,
resolver outcome), processed in order by the poll cycles. -/
def runObs (cfg : Bool) (mi0 : MatchInput) :
    List (Nat × String × Option GoalLineResult) → DBState → DBState
  | [], s => s
  | st :: rest, s =>
    runObs cfg mi0 rest
      (processMatchWithGoalLine cfg st.1 { mi0 with score := st.2.1 } st.2.2 s).1

/-- Status order: unchanged, or live to finished. -/
def statusLE (a b : MatchStatus) : Prop :=
  a = b ∨ (a = MatchStatus.live ∧ b = MatchStatus.finished)

/-- The key of an odds-history row. -/
abbrev oddsKey (id : String) (h ov : ℚ) (r : OddsRow) : Prop :=
  r.match_id = id ∧ r.handicap = h ∧ r.odds_value = ov

/-! ## Basic lemmas about the store -/

theorem updRow_matchId (f : MatchRow → MatchRow)
    (hf : ∀ r, (f r).match_id = r.match_id) (id : String) (m : MatchRow) :
    (if m.match_id = id then f m else m).match_id = m.match_id := by
  by_cases hc : m.match_id = id <;> simp [hc, hf]

theorem getMatch_updRow (id id' : String) (f : MatchRow → MatchRow)
    (hf : ∀ r, (f r).match_id = r.match_id) (s : DBState) :
    getMatch (updRow id f s) id' =
      (getMatch s id').map (fun m => if m.match_id = id then f m else m) := by
  unfold getMatch updRow
  rw [List.find?_map]
  have hp : ((fun m : MatchRow => decide (m.match_id = id')) ∘
      (fun m => if m.match_id = id then f m else m)) =
      (fun m : MatchRow => decide (m.match_id = id')) := by
    funext m
    simp [Function.comp, updRow_matchId f hf id m]
  rw [hp]

theorem getMatch_some {s : DBState} {id : String} {m : MatchRow}
    (h : getMatch s id = some m) : m ∈ s.matchesTab ∧ m.match_id = id := by
  unfold getMatch at h
  refine ⟨List.mem_of_find?_eq_some h, ?_⟩
  have := List.find?_some h
  simpa using this

theorem getMatch_none_iff (s : DBState) (id : String) :
    getMatch s id = none ↔ ∀ m ∈ s.matchesTab, m.match_id ≠ id := by
  unfold getMatch
  rw [List.find?_eq_none]
  simp

theorem getMatch_updRow_self {s : DBState} {id : String} {m : MatchRow}
    (f : MatchRow → MatchRow) (hf : ∀ r, (f r).match_id = r.match_id)
    (hm : getMatch s id = some m) :
    getMatch (updRow id f s) id = some (f m) := by
  rw [getMatch_updRow id id f hf s, hm]
  simp [(getMatch_some hm).2]

theorem getMatch_updRow_other {s : DBState} {id id' : String}
    (f : MatchRow → MatchRow) (hf : ∀ r, (f r).match_id = r.match_id)
    (hne : id' ≠ id) :
    getMatch (updRow id f s) id' = getMatch s id' := by
  rw [getMatch_updRow id id' f hf s]
  cases hm : getMatch s id' with
  | none => rfl
  | some m =>
    have := (getMatch_some hm).2
    simp [this, hne]

theorem getMatch_insertMatch (r : MatchRow) (s : DBState) (id : String) :
    getMatch (insertMatch r s) id =
      (getMatch s id).or (if r.match_id = id then some r else none) := by
  unfold getMatch insertMatch
  rw [List.find?_append]
  congr 1
  by_cases hc : r.match_id = id <;> simp [hc]

theorem matchesTab_saveGoalLineHistory (id : String) (h : ℚ) (ov : String)
    (now : Nat) (s : DBState) :
    (saveGoalLineHistory id h ov now s).matchesTab = s.matchesTab := by
  simp only [saveGoalLineHistory]
  split <;> rfl

theorem getMatch_saveGoalLineHistory (id id' : String) (h : ℚ) (ov : String)
    (now : Nat) (s : DBState) :
    getMatch (saveGoalLineHistory id h ov now s) id' = getMatch s id' := by
  unfold getMatch
  rw [matchesTab_saveGoalLineHistory]

/-! ## Claim C10 — target lookup defaults to 1.5 -/

/-- C10: the target-lookup returns the configured value for every
configured league and the default 1.5 for every other league id. -/
theorem claim_C10_target_lookup :
    (∀ lid v, (lid, v) ∈ targetGoalLines → getTargetGoalLine lid = v) ∧
    (∀ lid, lid ∉ targetGoalLines.map Prod.fst →
      getTargetGoalLine lid = Rat.divInt 3 2) := by
  constructor
  · intro lid v h
    simp [targetGoalLines] at h
    rcases h with ⟨h1, h2⟩ | ⟨h1, h2⟩ | ⟨h1, h2⟩ | ⟨h1, h2⟩ <;> subst h1 <;> subst h2 <;> decide
  · intro lid h
    simp [targetGoalLines] at h
    obtain ⟨h1, h2, h3, h4⟩ := h
    have b1 : (lid == 23114) = false := by simpa using h1
    have b2 : (lid == 37298) = false := by simpa using h2
    have b3 : (lid == 38439) = false := by simpa using h3
    have b4 : (lid == 22614) = false := by simpa using h4
    simp [getTargetGoalLine, targetGoalLines, List.lookup, b1, b2, b3, b4]

/-- C10 witness: the configured league 23114 maps to 2.5 and the
unconfigured league 999 falls back to 1.5. -/
theorem claim_C10_witness :
    getTargetGoalLine 23114 = Rat.divInt 5 2 ∧ getTargetGoalLine 999 = Rat.divInt 3 2 :=
  ⟨claim_C10_target_lookup.1 23114 (Rat.divInt 5 2) (by decide),
   claim_C10_target_lookup.2 999 (by decide)⟩

/-! ## Claim C6 — idempotent history insertion -/

/-- C6: history insertion is insert-or-ignore keyed on
(match id, handicap, odds value): appending the same tuple twice leaves
the store exactly as after the first append, an append only ever adds
rows at the tail (it never updates an existing row), and starting from a
state without the tuple, two appends leave exactly one matching row. -/
theorem claim_C6_history_idempotent (s : DBState) (id : String) (h : ℚ)
    (ov : String) (t1 t2 : Nat)
    (hcnt : (s.odds_history.filter (fun r =>
        decide (oddsKey id h ((parseFloatJS ov).getD 0) r))).length = 0) :
    saveGoalLineHistory id h ov t2 (saveGoalLineHistory id h ov t1 s) =
      saveGoalLineHistory id h ov t1 s ∧
    (∃ t, (saveGoalLineHistory id h ov t1 s).odds_history = s.odds_history ++ t) ∧
    ((saveGoalLineHistory id h ov t2 (saveGoalLineHistory id h ov t1 s)).odds_history.filter
        (fun r => decide (oddsKey id h ((parseFloatJS ov).getD 0) r))).length = 1 := by
  have hnil : s.odds_history.filter (fun r =>
      decide (oddsKey id h ((parseFloatJS ov).getD 0) r)) = [] :=
    List.length_eq_zero.mp hcnt
  have hall := List.filter_eq_nil_iff.mp hnil
  have hany : (s.odds_history.any (fun r =>
      decide (r.match_id = id ∧ r.handicap = h ∧
        r.odds_value = (parseFloatJS ov).getD 0))) = false := by
    rw [List.any_eq_false]
    intro r hr
    have := hall r hr
    simpa using this
  have h1 : saveGoalLineHistory id h ov t1 s =
      { s with odds_history :=
          s.odds_history ++ [⟨id, h, (parseFloatJS ov).getD 0, t1⟩] } := by
    unfold saveGoalLineHistory
    rw [if_neg]
    rw [hany]
    exact Bool.false_ne_true
  have h2 : saveGoalLineHistory id h ov t2 (saveGoalLineHistory id h ov t1 s) =
      { s with odds_history :=
          s.odds_history ++ [⟨id, h, (parseFloatJS ov).getD 0, t1⟩] } := by
    rw [h1]
    unfold saveGoalLineHistory
    rw [if_pos]
    simp [List.any_append]
  refine ⟨h2.trans h1.symm, ⟨[⟨id, h, (parseFloatJS ov).getD 0, t1⟩], by rw [h1]⟩, ?_⟩
  rw [h2]
  simp only [List.filter_append, hnil]
  simp

/-- C6 witness: the theorem applied to the empty store with a concrete
tuple. -/
theorem claim_C6_witness :
    ((initDB.odds_history.filter (fun r =>
        decide (oddsKey "m" (Rat.divInt 3 2) ((parseFloatJS "1.90").getD 0) r))).length = 0) ∧
    (saveGoalLineHistory "m" (Rat.divInt 3 2) "1.90" 1
        (saveGoalLineHistory "m" (Rat.divInt 3 2) "1.90" 0 initDB) =
      saveGoalLineHistory "m" (Rat.divInt 3 2) "1.90" 0 initDB ∧
    (∃ t, (saveGoalLineHistory "m" (Rat.divInt 3 2) "1.90" 0 initDB).odds_history =
        initDB.odds_history ++ t) ∧
    ((saveGoalLineHistory "m" (Rat.divInt 3 2) "1.90" 1
        (saveGoalLineHistory "m" (Rat.divInt 3 2) "1.90" 0 initDB)).odds_history.filter
        (fun r =>
          decide (oddsKey "m" (Rat.divInt 3 2) ((parseFloatJS "1.90").getD 0) r))).length = 1) :=
  ⟨rfl, claim_C6_history_idempotent initDB "m" (Rat.divInt 3 2) "1.90" 0 1 rfl⟩

/-! ## Claim C9 — Unavailable updates progress only -/

/-- C9: when the resolver yields Unavailable for an existing tracked
match, only `current_score` is updated — every attribute field is
unchanged, no notification is emitted, the odds history is untouched, and
every other row is untouched; the step is total, so the cycle continues
past the event. -/
theorem claim_C9_unavailable_updates_score_only (cfg : Bool) (now : Nat)
    (mi : MatchInput) (s : DBState) (m : MatchRow)
    (hm : getMatch s mi.id = some m) :
    getMatch (processMatchWithGoalLine cfg now mi none s).1 mi.id =
      some { m with current_score := some mi.score } ∧
    (processMatchWithGoalLine cfg now mi none s).2 = [] ∧
    (processMatchWithGoalLine cfg now mi none s).1.odds_history = s.odds_history ∧
    (∀ id', id' ≠ mi.id →
      getMatch (processMatchWithGoalLine cfg now mi none s).1 id' = getMatch s id') := by
  have hstep : processMatchWithGoalLine cfg now mi none s =
      (updateMatchScore mi.id mi.score s, []) := by
    simp [processMatchWithGoalLine, hm]
  rw [hstep]
  refine ⟨?_, rfl, rfl, ?_⟩
  · exact getMatch_updRow_self _ (fun r => rfl) hm
  · intro id' hne
    exact getMatch_updRow_other _ (fun r => rfl) hne

/-- C9 witness: a concrete store with one tracked match and an
Unavailable observation for it. -/
theorem claim_C9_witness :
    getMatch
      (processMatchWithGoalLine false 1
        ⟨"m1", "b1", 23114, "GT League", "H", "A", "1-0"⟩ none
        (insertMatch (newRow 0 ⟨"m1", "b1", 23114, "GT League", "H", "A", "0-0"⟩ none false)
          initDB)).1 "m1" =
      some { newRow 0 ⟨"m1", "b1", 23114, "GT League", "H", "A", "0-0"⟩ none false with
        current_score := some "1-0" } :=
  (claim_C9_unavailable_updates_score_only false 1
    ⟨"m1", "b1", 23114, "GT League", "H", "A", "1-0"⟩
    (insertMatch (newRow 0 ⟨"m1", "b1", 23114, "GT League", "H", "A", "0-0"⟩ none false) initDB)
    (newRow 0 ⟨"m1", "b1", 23114, "GT League", "H", "A", "0-0"⟩ none false) (by rfl)).1

/-! ## Claim C3 — delivery queue retry/backoff -/

/-- C3 counterexample: with an always-failing gateway, a single fresh
queue item is attempted 4 times, not at most `maxRetries` (3) as the
claim's increment-then-check reading implies. -/
theorem claim_C3_counterexample :
    (Telegram.processQueue (fun _ => false) 0 [⟨0, 0⟩]).length = 4 ∧
    ¬ (Telegram.processQueue (fun _ => false) 0 [⟨0, 0⟩]).length ≤ Telegram.maxRetries := by
  have h : Telegram.processQueue (fun _ => false) 0 [⟨0, 0⟩] =
      [⟨0, 0, false, true, some 1000⟩, ⟨0, 1, false, true, some 2000⟩,
       ⟨0, 2, false, true, some 3000⟩, ⟨0, 3, false, false, none⟩] := by
    simp [Telegram.processQueue, Telegram.maxRetries, Telegram.retryDelay]
  rw [h]
  simp [Telegram.maxRetries]

/-- C3 amended: each failed attempt first checks `retryCount < 3`; if so
it increments the count and re-enqueues at the tail with a backoff delay
proportional to the incremented count, otherwise it drops the item
without incrementing — so a perpetually failing item with initial count
`r ≤ 3` is attempted exactly `4 - r` times (4 for a fresh item) and never
delivered. -/
theorem claim_C3_retry_check_then_increment :
    (∀ (send : Nat → Bool) (k : Nat) (item : Telegram.PendingMsg)
        (rest : List Telegram.PendingMsg),
      send k = false → item.retries < Telegram.maxRetries →
      Telegram.processQueue send k (item :: rest) =
        ⟨item.msg, item.retries, false, true,
          some (Telegram.retryDelay * (item.retries + 1))⟩ ::
          Telegram.processQueue send (k + 1) (rest ++ [⟨item.msg, item.retries + 1⟩])) ∧
    (∀ (send : Nat → Bool) (k : Nat) (item : Telegram.PendingMsg)
        (rest : List Telegram.PendingMsg),
      send k = false → ¬ item.retries < Telegram.maxRetries →
      Telegram.processQueue send k (item :: rest) =
        ⟨item.msg, item.retries, false, false, none⟩ ::
          Telegram.processQueue send (k + 1) rest) ∧
    (∀ (k r m : Nat), r ≤ Telegram.maxRetries →
      (Telegram.processQueue (fun _ => false) k [⟨m, r⟩]).length =
        Telegram.maxRetries + 1 - r ∧
      ∀ a ∈ Telegram.processQueue (fun _ => false) k [⟨m, r⟩], a.delivered = false) := by
  refine ⟨?_, ?_, ?_⟩
  · intro send k item rest hs hlt
    rw [Telegram.processQueue]
    simp [hs, hlt]
  · intro send k item rest hs hlt
    rw [Telegram.processQueue]
    simp [hs, hlt]
  · intro k r m hr
    simp only [Telegram.maxRetries] at hr
    interval_cases r <;>
      constructor <;>
      simp [Telegram.processQueue, Telegram.maxRetries, Telegram.retryDelay]

/-- C3 witness for the amended theorem: concrete failed attempts below
and at the retry ceiling, and the four-attempt run of a fresh item. -/
theorem claim_C3_witness :
    ((fun _ => false) 5 = false ∧ (1 : Nat) < Telegram.maxRetries ∧
      Telegram.processQueue (fun _ => false) 5 [⟨9, 1⟩] =
        ⟨9, 1, false, true, some (Telegram.retryDelay * 2)⟩ ::
          Telegram.processQueue (fun _ => false) 6 [⟨9, 2⟩]) ∧
    ((0 : Nat) ≤ Telegram.maxRetries ∧
      (Telegram.processQueue (fun _ => false) 0 [⟨9, 0⟩]).length =
        Telegram.maxRetries + 1 - 0) :=
  ⟨⟨rfl, by decide,
    by
      have h := claim_C3_retry_check_then_increment.1 (fun _ => false) 5 ⟨9, 1⟩ []
        rfl (by decide)
      simpa using h⟩,
   ⟨by decide, (claim_C3_retry_check_then_increment.2.2 0 0 9 (by decide)).1⟩⟩

/-! ## The touched-row step lemma (shared by C1 and C2) -/

/-- Processing any observation of a match whose row has already touched
the target preserves its detection value, its touched flag, its league
and its alert flag, keeps the row invariant, and — for a value
observation — sets the current goal line and score to the observed
values. -/
theorem observeTouched (cfg : Bool) (now : Nat) (mi : MatchInput)
    (obs : Option GoalLineResult) (s : DBState) (mcur : MatchRow)
    (hm : getMatch s mi.id = some mcur) (hL : mi.leagueId = mcur.league_id)
    (ht : mcur.touched_15 = true) (hrow : rowInv cfg mcur) :
    ∃ mnext, getMatch (processMatchWithGoalLine cfg now mi obs s).1 mi.id = some mnext ∧
      mnext.detected_odds = mcur.detected_odds ∧
      mnext.touched_15 = true ∧
      mnext.league_id = mcur.league_id ∧
      mnext.alert_sent = mcur.alert_sent ∧
      rowInv cfg mnext ∧
      (∀ glr, obs = some glr →
        mnext.current_goal_line = some glr.handicap ∧
        mnext.current_score = some mi.score) := by
  cases obs with
  | none =>
    have hstep : processMatchWithGoalLine cfg now mi none s =
        (updateMatchScore mi.id mi.score s, []) := by
      simp [processMatchWithGoalLine, hm]
    rw [hstep]
    exact ⟨_, getMatch_updRow_self _ (fun r => rfl) hm, rfl, ht, rfl, rfl, hrow,
      fun glr h => Option.noConfusion h⟩
  | some glr =>
    by_cases hth : glr.handicap = getTargetGoalLine mi.leagueId
    · by_cases hal : mcur.alert_sent = false
      · cases cfg with
        | true =>
          have hA := (hrow ht).2 rfl
          rw [hA] at hal
          simp at hal
        | false =>
          have hstep : processMatchWithGoalLine false now mi (some glr) s =
              (saveGoalLineHistory mi.id glr.handicap glr.overOdds now
                (markMatchAsTouchedTarget mi.id glr.handicap mi.score s), []) := by
            simp only [processMatchWithGoalLine, hm]
            rw [if_pos hth, if_pos hal]
            simp [sendTargetDetectionAlert]
          rw [hstep]
          have hd : mcur.detected_odds = some glr.handicap := by
            rw [(hrow ht).1, ← hL, hth]
          have hg : getMatch (saveGoalLineHistory mi.id glr.handicap glr.overOdds now
              (markMatchAsTouchedTarget mi.id glr.handicap mi.score s)) mi.id =
              some { mcur with detected_odds := some glr.handicap,
                               current_goal_line := some glr.handicap,
                               current_score := some mi.score,
                               touched_15 := true } := by
            rw [getMatch_saveGoalLineHistory]
            exact getMatch_updRow_self _ (fun r => rfl) hm
          refine ⟨_, hg, hd.symm, rfl, rfl, rfl, ?_, ?_⟩
          · intro htc
            refine ⟨?_, ?_⟩
            · show some glr.handicap = some (getTargetGoalLine mcur.league_id)
              rw [← hL, hth]
            · intro hcf
              exact absurd hcf (by simp)
          · intro glr' hglr
            cases hglr
            exact ⟨rfl, rfl⟩
      · have hal' : mcur.alert_sent = true := by
          revert hal
          cases mcur.alert_sent <;> simp
        have hstep : processMatchWithGoalLine cfg now mi (some glr) s =
            (saveGoalLineHistory mi.id glr.handicap glr.overOdds now
              (updateMatchScoreAndGoalLine mi.id mi.score glr.handicap s), []) := by
          simp only [processMatchWithGoalLine, hm]
          rw [if_pos hth, if_neg (by simp [hal'])]
        rw [hstep]
        have hg : getMatch (saveGoalLineHistory mi.id glr.handicap glr.overOdds now
            (updateMatchScoreAndGoalLine mi.id mi.score glr.handicap s)) mi.id =
            some { mcur with current_score := some mi.score,
                             current_goal_line := some glr.handicap } := by
          rw [getMatch_saveGoalLineHistory]
          exact getMatch_updRow_self _ (fun r => rfl) hm
        refine ⟨_, hg, rfl, ht, rfl, rfl, hrow, ?_⟩
        intro glr' hglr
        cases hglr
        exact ⟨rfl, rfl⟩
    · have hstep : processMatchWithGoalLine cfg now mi (some glr) s =
          (saveGoalLineHistory mi.id glr.handicap glr.overOdds now
            (updateMatchScoreAndGoalLine mi.id mi.score glr.handicap s), []) := by
        simp only [processMatchWithGoalLine, hm]
        rw [if_neg hth]
        simp [ht]
      rw [hstep]
      have hg : getMatch (saveGoalLineHistory mi.id glr.handicap glr.overOdds now
          (updateMatchScoreAndGoalLine mi.id mi.score glr.handicap s)) mi.id =
          some { mcur with current_score := some mi.score,
                           current_goal_line := some glr.handicap } := by
        rw [getMatch_saveGoalLineHistory]
        exact getMatch_updRow_self _ (fun r => rfl) hm
      refine ⟨_, hg, rfl, ht, rfl, rfl, hrow, ?_⟩
      intro glr' hglr
      cases hglr
      exact ⟨rfl, rfl⟩

/-- `runObs` distributes over concatenation of observation lists. -/
theorem runObs_append (cfg : Bool) (mi0 : MatchInput)
    (l1 l2 : List (Nat × String × Option GoalLineResult)) (s : DBState) :
    runObs cfg mi0 (l1 ++ l2) s = runObs cfg mi0 l2 (runObs cfg mi0 l1 s) := by
  induction l1 generalizing s with
  | nil => rfl
  | cons st rest ih => simp [runObs, ih]

/-- Iterated form of `observeTouched` along a whole observation list. -/
theorem runObs_touched (cfg : Bool) (mi0 : MatchInput) (D : Option ℚ)
    (steps : List (Nat × String × Option GoalLineResult)) :
    ∀ (s : DBState) (mcur : MatchRow),
    getMatch s mi0.id = some mcur → mi0.leagueId = mcur.league_id →
    mcur.touched_15 = true → rowInv cfg mcur → mcur.detected_odds = D →
    ∃ mf, getMatch (runObs cfg mi0 steps s) mi0.id = some mf ∧
      mf.detected_odds = D ∧ mi0.leagueId = mf.league_id ∧
      mf.touched_15 = true ∧ rowInv cfg mf := by
  induction steps with
  | nil =>
    intro s mcur h1 h2 h3 h4 h5
    exact ⟨mcur, h1, h5, h2, h3, h4⟩
  | cons st rest ih =>
    intro s mcur h1 h2 h3 h4 h5
    obtain ⟨mn, g1, g2, g3, g4, g5, g6, g7⟩ :=
      observeTouched cfg st.1 { mi0 with score := st.2.1 } st.2.2 s mcur h1 h2 h3 h4
    simp only [runObs]
    exact ih _ mn g1 (h2.trans g4.symm) g3 g6 (g2.trans h5)

/-! ## Claim C1 — detection value frozen once touched -/

/-- C1: once a tracked match's `touched_15` flag is true (with the row
invariant holding), `detected_odds` never changes across any sequence of
later observations of that match — at, above or below the target — while
`current_goal_line` (and the score) is set by every value-carrying
observation. -/
theorem claim_C1_detection_value_frozen (cfg : Bool) (mi0 : MatchInput)
    (s : DBState) (m : MatchRow)
    (hm : getMatch s mi0.id = some m) (hL : mi0.leagueId = m.league_id)
    (ht : m.touched_15 = true) (hrow : rowInv cfg m) :
    (∀ steps, ∃ mf, getMatch (runObs cfg mi0 steps s) mi0.id = some mf ∧
      mf.detected_odds = m.detected_odds ∧ mf.touched_15 = true) ∧
    (∀ steps (now : Nat) (sc : String) (glr : GoalLineResult), ∃ mf,
      getMatch (runObs cfg mi0 (steps ++ [(now, sc, some glr)]) s) mi0.id = some mf ∧
      mf.detected_odds = m.detected_odds ∧
      mf.current_goal_line = some glr.handicap ∧ mf.current_score = some sc) := by
  constructor
  · intro steps
    obtain ⟨mf, h1, h2, h3, h4, h5⟩ :=
      runObs_touched cfg mi0 m.detected_odds steps s m hm hL ht hrow rfl
    exact ⟨mf, h1, h2, h4⟩
  · intro steps now sc glr
    obtain ⟨mm, h1, h2, h3, h4, h5⟩ :=
      runObs_touched cfg mi0 m.detected_odds steps s m hm hL ht hrow rfl
    rw [runObs_append]
    obtain ⟨mf, g1, g2, g3, g4, g5, g6, g7⟩ :=
      observeTouched cfg now { mi0 with score := sc } (some glr)
        (runObs cfg mi0 steps s) mm h1 h3 h4 h5
    obtain ⟨gcur, gsc⟩ := g7 glr rfl
    exact ⟨mf, by simpa [runObs] using g1, g2.trans h2, gcur, gsc⟩

/-- C1 witness: a concrete touched row observed later above its league
target keeps `detected_odds = 2.5` while `current_goal_line` moves. -/
theorem claim_C1_witness :
    ∃ mf,
      getMatch
        (runObs true ⟨"m1", "b", 23114, "GT", "H", "A", "0-0"⟩
          [(1, "1-0", some ⟨Rat.divInt 7 2, "1.80", "2.00", "1-0"⟩)]
          ⟨[⟨"m1", some "b", 23114, "H", "A", 0, some (Rat.divInt 5 2),
             some (Rat.divInt 5 2), some "0-0", MatchStatus.live, none, none, none,
             true, false, true⟩], []⟩) "m1" = some mf ∧
      mf.detected_odds = (⟨"m1", some "b", 23114, "H", "A", 0, some (Rat.divInt 5 2),
        some (Rat.divInt 5 2), some "0-0", MatchStatus.live, none, none, none,
        true, false, true⟩ : MatchRow).detected_odds ∧
      mf.touched_15 = true :=
  (claim_C1_detection_value_frozen true ⟨"m1", "b", 23114, "GT", "H", "A", "0-0"⟩
    ⟨[⟨"m1", some "b", 23114, "H", "A", 0, some (Rat.divInt 5 2),
       some (Rat.divInt 5 2), some "0-0", MatchStatus.live, none, none, none,
       true, false, true⟩], []⟩
    ⟨"m1", some "b", 23114, "H", "A", 0, some (Rat.divInt 5 2),
     some (Rat.divInt 5 2), some "0-0", MatchStatus.live, none, none, none,
     true, false, true⟩
    rfl rfl rfl (by decide)).1
    [(1, "1-0", some ⟨Rat.divInt 7 2, "1.80", "2.00", "1-0"⟩)]

/-! ## Claim C2 — target-equal observation on a touched row -/

/-- C2: for an existing row with `touched_15 = true` (row invariant
holding), processing an observation at the league target updates only the
current goal line and score — the stored row is exactly the old row with
those two fields replaced, so `detected_odds` is untouched — and no
notification is emitted. -/
theorem claim_C2_touched_target_updates_current_only (cfg : Bool) (now : Nat)
    (mi : MatchInput) (glr : GoalLineResult) (s : DBState) (m : MatchRow)
    (hrow : rowInv cfg m) (hm : getMatch s mi.id = some m)
    (hL : mi.leagueId = m.league_id) (ht : m.touched_15 = true)
    (htar : glr.handicap = getTargetGoalLine mi.leagueId) :
    getMatch (processMatchWithGoalLine cfg now mi (some glr) s).1 mi.id =
      some { m with current_goal_line := some glr.handicap,
                    current_score := some mi.score } ∧
    (processMatchWithGoalLine cfg now mi (some glr) s).2 = [] := by
  by_cases hal : m.alert_sent = false
  · cases cfg with
    | true =>
      have hA := (hrow ht).2 rfl
      rw [hA] at hal
      simp at hal
    | false =>
      have hstep : processMatchWithGoalLine false now mi (some glr) s =
          (saveGoalLineHistory mi.id glr.handicap glr.overOdds now
            (markMatchAsTouchedTarget mi.id glr.handicap mi.score s), []) := by
        simp only [processMatchWithGoalLine, hm]
        rw [if_pos htar, if_pos hal]
        simp [sendTargetDetectionAlert]
      rw [hstep]
      refine ⟨?_, rfl⟩
      have hg : getMatch (markMatchAsTouchedTarget mi.id glr.handicap mi.score s) mi.id =
          some { m with detected_odds := some glr.handicap,
                        current_goal_line := some glr.handicap,
                        current_score := some mi.score,
                        touched_15 := true } :=
        getMatch_updRow_self _ (fun r => rfl) hm
      rw [getMatch_saveGoalLineHistory, hg]
      have hd : m.detected_odds = some glr.handicap := by
        rw [(hrow ht).1, ← hL, htar]
      cases m
      simp only at hd ht ⊢
      rw [← hd, ← ht]
  · have hal' : m.alert_sent = true := by
      revert hal
      cases m.alert_sent <;> simp
    have hstep : processMatchWithGoalLine cfg now mi (some glr) s =
        (saveGoalLineHistory mi.id glr.handicap glr.overOdds now
          (updateMatchScoreAndGoalLine mi.id mi.score glr.handicap s), []) := by
      simp only [processMatchWithGoalLine, hm]
      rw [if_pos htar, if_neg (by simp [hal'])]
    rw [hstep]
    refine ⟨?_, rfl⟩
    rw [getMatch_saveGoalLineHistory]
    exact getMatch_updRow_self _ (fun r => rfl) hm

/-- C2 witness: a touched, alerted row at league target 2.5 observed at
2.5 again — only the current fields move, no effect is emitted. -/
theorem claim_C2_witness :
    getMatch
      (processMatchWithGoalLine true 1 ⟨"m1", "b", 23114, "GT", "H", "A", "1-0"⟩
        (some ⟨Rat.divInt 5 2, "1.90", "2.00", "1-0"⟩)
        ⟨[⟨"m1", some "b", 23114, "H", "A", 0, some (Rat.divInt 5 2),
           some (Rat.divInt 5 2), some "0-0", MatchStatus.live, none, none, none,
           true, false, true⟩], []⟩).1 "m1" =
      some { (⟨"m1", some "b", 23114, "H", "A", 0, some (Rat.divInt 5 2),
           some (Rat.divInt 5 2), some "0-0", MatchStatus.live, none, none, none,
           true, false, true⟩ : MatchRow) with
           current_goal_line := some (Rat.divInt 5 2), current_score := some "1-0" } ∧
    (processMatchWithGoalLine true 1 ⟨"m1", "b", 23114, "GT", "H", "A", "1-0"⟩
        (some ⟨Rat.divInt 5 2, "1.90", "2.00", "1-0"⟩)
        ⟨[⟨"m1", some "b", 23114, "H", "A", 0, some (Rat.divInt 5 2),
           some (Rat.divInt 5 2), some "0-0", MatchStatus.live, none, none, none,
           true, false, true⟩], []⟩).2 = [] :=
  claim_C2_touched_target_updates_current_only true 1
    ⟨"m1", "b", 23114, "GT", "H", "A", "1-0"⟩
    ⟨Rat.divInt 5 2, "1.90", "2.00", "1-0"⟩
    ⟨[⟨"m1", some "b", 23114, "H", "A", 0, some (Rat.divInt 5 2),
       some (Rat.divInt 5 2), some "0-0", MatchStatus.live, none, none, none,
       true, false, true⟩], []⟩
    ⟨"m1", some "b", 23114, "H", "A", 0, some (Rat.divInt 5 2),
     some (Rat.divInt 5 2), some "0-0", MatchStatus.live, none, none, none,
     true, false, true⟩
    (by decide) rfl rfl rfl (by decide)

/-! ## Lemmas about marking matches finished -/

theorem updRow_updRow (id : String) (f1 f2 : MatchRow → MatchRow)
    (hf1 : ∀ r, (f1 r).match_id = r.match_id) (s : DBState) :
    updRow id f2 (updRow id f1 s) = updRow id (fun r => f2 (f1 r)) s := by
  unfold updRow
  simp only [List.map_map]
  have hfg : ((fun m => if m.match_id = id then f2 m else m) ∘
      fun m => if m.match_id = id then f1 m else m) =
      (fun m : MatchRow => if m.match_id = id then f2 (f1 m) else m) := by
    funext r
    by_cases hc : r.match_id = id <;> simp [Function.comp, hc, hf1]
  rw [hfg]

theorem markFinished_shape (cfg : Bool) (env : FinishEnv) (m : MatchRow) (s : DBState) :
    (markMatchAsFinished cfg env m s).1 = updRow m.match_id (finishUpd env m) s ∨
    (markMatchAsFinished cfg env m s).1 =
      updRow m.match_id (fun r => { finishUpd env m r with result_alert_sent := true }) s := by
  unfold markMatchAsFinished
  dsimp only
  split
  · split
    · split
      · right
        rw [updRow_updRow m.match_id (finishUpd env m)
          (fun r => { r with result_alert_sent := true }) (fun r => rfl) s]
      · left
        rfl
    · left
      rfl
  · left
    rfl

theorem finishUpd_matchId (env : FinishEnv) (m r : MatchRow) :
    (finishUpd env m r).match_id = r.match_id := rfl

theorem markFinished_frame (cfg : Bool) (env : FinishEnv) (m : MatchRow)
    (s : DBState) (id : String) (hne : id ≠ m.match_id) :
    getMatch (markMatchAsFinished cfg env m s).1 id = getMatch s id := by
  rcases markFinished_shape cfg env m s with h | h <;> rw [h]
  · exact getMatch_updRow_other _ (fun r => rfl) hne
  · exact getMatch_updRow_other _ (fun r => rfl) hne

theorem markFinished_self (cfg : Bool) (env : FinishEnv) (m : MatchRow)
    (s : DBState) (mrow : MatchRow) (hm : getMatch s m.match_id = some mrow) :
    ∃ r, getMatch (markMatchAsFinished cfg env m s).1 m.match_id = some r ∧
      r.status = MatchStatus.finished ∧
      r.final_score_home = (finishScores env m).1 ∧
      r.final_score_away = (finishScores env m).2 ∧
      r.detected_odds = mrow.detected_odds ∧
      r.touched_15 = mrow.touched_15 ∧
      r.alert_sent = mrow.alert_sent ∧
      r.league_id = mrow.league_id := by
  rcases markFinished_shape cfg env m s with h | h <;> rw [h]
  · exact ⟨_, getMatch_updRow_self _ (fun r => rfl) hm,
      rfl, rfl, rfl, rfl, rfl, rfl, rfl⟩
  · exact ⟨_, getMatch_updRow_self _ (fun r => rfl) hm,
      rfl, rfl, rfl, rfl, rfl, rfl, rfl⟩

theorem finishFold_frame (cfg : Bool) (env : FinishEnv) (act : List String)
    (L : List MatchRow) :
    ∀ (s : DBState) (id : String), (∀ x ∈ L, x.match_id ≠ id) →
    getMatch (finishFold cfg env act L s).1 id = getMatch s id := by
  induction L with
  | nil => intro s id _; rfl
  | cons m rest ih =>
    intro s id h
    unfold finishFold
    split
    · exact ih s id (fun x hx => h x (List.mem_cons_of_mem _ hx))
    · simp only
      rw [ih _ id (fun x hx => h x (List.mem_cons_of_mem _ hx)),
        markFinished_frame cfg env m s id (Ne.symm (h m (List.mem_cons_self _ _)))]

theorem finishFold_finished_stays (cfg : Bool) (env : FinishEnv) (act : List String)
    (L : List MatchRow) :
    ∀ (s : DBState) (id : String) (r : MatchRow),
    getMatch s id = some r → r.status = MatchStatus.finished →
    ∃ q, getMatch (finishFold cfg env act L s).1 id = some q ∧
      q.status = MatchStatus.finished := by
  induction L with
  | nil => intro s id r h hr; exact ⟨r, h, hr⟩
  | cons m rest ih =>
    intro s id r h hr
    unfold finishFold
    split
    · exact ih s id r h hr
    · simp only
      by_cases hid : id = m.match_id
      · subst hid
        obtain ⟨q, hq, hqs, _⟩ := markFinished_self cfg env m s r h
        exact ih _ m.match_id q hq hqs
      · exact ih (markMatchAsFinished cfg env m s).1 id r
          (by rw [markFinished_frame cfg env m s id hid]; exact h) hr

theorem finishFold_marks (cfg : Bool) (env : FinishEnv) (act : List String)
    (L : List MatchRow) :
    ∀ (s : DBState) (id : String), id ∉ act → (∃ x ∈ L, x.match_id = id) →
    ∀ mrow, getMatch s id = some mrow →
    ∃ q, getMatch (finishFold cfg env act L s).1 id = some q ∧
      q.status = MatchStatus.finished := by
  induction L with
  | nil =>
    intro s id _ hmem
    obtain ⟨x, hx, _⟩ := hmem
    exact absurd hx (List.not_mem_nil x)
  | cons m rest ih =>
    intro s id hact hmem mrow hm
    unfold finishFold
    split
    · rename_i hc
      obtain ⟨x, hx, hxid⟩ := hmem
      rcases List.mem_cons.mp hx with hx1 | hx2
      · subst hx1
        rw [hxid] at hc
        exact absurd hc hact
      · exact ih s id hact ⟨x, hx2, hxid⟩ mrow hm
    · simp only
      by_cases hid : m.match_id = id
      · subst hid
        obtain ⟨q, hq, hqs, _⟩ := markFinished_self cfg env m s mrow hm
        exact finishFold_finished_stays cfg env act rest _ m.match_id q hq hqs
      · obtain ⟨x, hx, hxid⟩ := hmem
        rcases List.mem_cons.mp hx with hx1 | hx2
        · subst hx1
          exact absurd hxid hid
        · exact ih _ id hact ⟨x, hx2, hxid⟩ mrow
            (by rw [markFinished_frame cfg env m s id (fun he => hid he.symm)]; exact hm)

/-! ## Claim C5 — completion trigger and final outcome resolution -/

/-- C5 counterexample: a live match with half-parsable score `"2-x"` and
no stored secondary identifier is marked finished with
`final_score_home = some 2` and `final_score_away = none` — the final
outcome is not left null as the claim's stage (c) states. -/
theorem claim_C5_counterexample :
    ∃ r, getMatch (markMatchAsFinished false ⟨fun _ => none, 5⟩
        ⟨"m1", none, 23114, "H", "A", 0, none, none, some "2-x", MatchStatus.live,
         none, none, none, false, false, false⟩
        ⟨[⟨"m1", none, 23114, "H", "A", 0, none, none, some "2-x", MatchStatus.live,
           none, none, none, false, false, false⟩], []⟩).1 "m1" = some r ∧
      r.status = MatchStatus.finished ∧
      r.final_score_home = some 2 ∧
      r.final_score_away = none ∧
      ¬ (r.final_score_home = none ∧ r.final_score_away = none) := by
  refine ⟨_, rfl, rfl, rfl, rfl, by decide⟩

/-- C5 amended: a live event absent from the active set is marked
finished; final outcome resolution parses the two sides of
`currentScore` independently (a), falls back to a remote lookup via the
stored secondary identifier accepted only on a full parse (b), and
otherwise keeps the sides parsed in stage (a) — possibly only one side,
both null only when neither side parsed — while status still becomes
finished (c). -/
theorem claim_C5_finish_resolution (cfg : Bool) (env : FinishEnv)
    (activeIds : List String) (s : DBState) (m : MatchRow)
    (hm : getMatch s m.match_id = some m)
    (hlive : m.status = MatchStatus.live) (hact : m.match_id ∉ activeIds) :
    (∃ r, getMatch (checkFinishedMatchesV2 cfg env activeIds s).1 m.match_id = some r ∧
       r.status = MatchStatus.finished) ∧
    (∃ r, getMatch (markMatchAsFinished cfg env m s).1 m.match_id = some r ∧
       r.status = MatchStatus.finished ∧
       r.final_score_home = (finishScores env m).1 ∧
       r.final_score_away = (finishScores env m).2) ∧
    (∀ h a, parsedFromCurrent m = (some h, some a) →
       finishScores env m = (some h, some a) ∧ finishLookedUp m = false) ∧
    (∀ ss h a, ((parsedFromCurrent m).1 = none ∨ (parsedFromCurrent m).2 = none) →
       truthyS m.bet365_id = true → env.remote (m.bet365_id.getD "") = some ss →
       parseScorePair ss = (some h, some a) →
       finishScores env m = (some h, some a) ∧ finishLookedUp m = true) ∧
    (((parsedFromCurrent m).1 = none ∨ (parsedFromCurrent m).2 = none) →
     (truthyS m.bet365_id = false ∨
       env.remote (m.bet365_id.getD "") = none ∨
       (∃ ss, env.remote (m.bet365_id.getD "") = some ss ∧
         ((parseScorePair ss).1 = none ∨ (parseScorePair ss).2 = none))) →
     finishScores env m = parsedFromCurrent m) := by
  refine ⟨?_, ?_, ?_, ?_, ?_⟩
  · have hmem : m ∈ s.matchesTab.filter (fun x => decide (x.status = MatchStatus.live)) :=
      List.mem_filter.mpr ⟨(getMatch_some hm).1, by simp [hlive]⟩
    exact finishFold_marks cfg env activeIds _ s m.match_id hact
      ⟨m, hmem, (getMatch_some hm).2⟩ m hm
  · obtain ⟨r, hr, h1, h2, h3, _⟩ := markFinished_self cfg env m s m hm
    exact ⟨r, hr, h1, h2, h3⟩
  · intro h a hp
    unfold finishScores finishLookedUp
    rw [hp]
    simp
  · intro ss h a hp htr hrem hparse
    unfold finishScores finishLookedUp
    rw [if_pos hp, htr]
    simp only [hrem]
    rw [hparse]
    simp [hp]
  · intro hp hfail
    unfold finishScores
    rw [if_pos hp]
    rcases hfail with hf | hf | ⟨ss, hss, hf⟩
    · rw [if_neg (by simp [hf])]
    · by_cases ht : truthyS m.bet365_id = true
      · rw [if_pos ht]
        simp only [hf]
      · rw [if_neg ht]
    · by_cases ht : truthyS m.bet365_id = true
      · rw [if_pos ht]
        simp only [hss]
        rw [if_neg]
        rcases hf with hf | hf
        · exact fun hcon => hcon.1 hf
        · exact fun hcon => hcon.2 hf
      · rw [if_neg ht]

/-- C5 witness: a live match with a well-formed score `"2-1"`, absent
from the active set, is finished with final outcome (2, 1). -/
theorem claim_C5_witness :
    ((∃ r, getMatch (checkFinishedMatchesV2 true ⟨fun _ => some "3-2", 5⟩ []
        ⟨[⟨"m2", some "b", 23114, "H", "A", 0, none, none, some "2-1", MatchStatus.live,
           none, none, none, false, false, false⟩], []⟩).1 "m2" = some r ∧
       r.status = MatchStatus.finished)) ∧
    (∀ h a, parsedFromCurrent
        ⟨"m2", some "b", 23114, "H", "A", 0, none, none, some "2-1", MatchStatus.live,
         none, none, none, false, false, false⟩ = (some h, some a) →
       finishScores ⟨fun _ => some "3-2", 5⟩
         ⟨"m2", some "b", 23114, "H", "A", 0, none, none, some "2-1", MatchStatus.live,
          none, none, none, false, false, false⟩ = (some h, some a) ∧
       finishLookedUp
         ⟨"m2", some "b", 23114, "H", "A", 0, none, none, some "2-1", MatchStatus.live,
          none, none, none, false, false, false⟩ = false) :=
  ⟨(claim_C5_finish_resolution true ⟨fun _ => some "3-2", 5⟩ []
      ⟨[⟨"m2", some "b", 23114, "H", "A", 0, none, none, some "2-1", MatchStatus.live,
         none, none, none, false, false, false⟩], []⟩
      ⟨"m2", some "b", 23114, "H", "A", 0, none, none, some "2-1", MatchStatus.live,
       none, none, none, false, false, false⟩
      rfl rfl (by simp)).1,
   (claim_C5_finish_resolution true ⟨fun _ => some "3-2", 5⟩ []
      ⟨[⟨"m2", some "b", 23114, "H", "A", 0, none, none, some "2-1", MatchStatus.live,
         none, none, none, false, false, false⟩], []⟩
      ⟨"m2", some "b", 23114, "H", "A", 0, none, none, some "2-1", MatchStatus.live,
       none, none, none, false, false, false⟩
      rfl rfl (by simp)).2.2.1⟩

/-! ## Master characterization of the observe step -/

theorem getMatch_eq_of_tab {s1 s2 : DBState} (h : s1.matchesTab = s2.matchesTab)
    (id : String) : getMatch s1 id = getMatch s2 id := by
  unfold getMatch
  rw [h]

theorem updRow_id_tab (id : String) (s : DBState) :
    (updRow id (fun r => r) s).matchesTab = s.matchesTab := by
  unfold updRow
  simp

/-- Every observe step rewrites the table as a single per-row update of
the row with the observed id, possibly after inserting a fresh live row
when no row existed; the update preserves the id, the status and the
completion flag and never clears the detection-alert flag. The emitted
effect list is empty, or is a single detection notification with the
gateway configured, sent only when the row was absent or un-alerted and
leaving its alert flag set. -/
theorem observe_master (cfg : Bool) (now : Nat) (mi : MatchInput)
    (obs : Option GoalLineResult) (s : DBState) :
    ∃ g : MatchRow → MatchRow,
      (∀ r, (g r).match_id = r.match_id) ∧
      (∀ r, (g r).status = r.status) ∧
      (∀ r, (g r).result_alert_sent = r.result_alert_sent) ∧
      (∀ r, r.alert_sent = true → (g r).alert_sent = true) ∧
      ((processMatchWithGoalLine cfg now mi obs s).1.matchesTab =
         (updRow mi.id g s).matchesTab ∨
       (getMatch s mi.id = none ∧ ∃ nr : MatchRow, nr.match_id = mi.id ∧
         nr.status = MatchStatus.live ∧ nr.result_alert_sent = false ∧
         (processMatchWithGoalLine cfg now mi obs s).1.matchesTab =
           (updRow mi.id g (insertMatch nr s)).matchesTab)) ∧
      ((processMatchWithGoalLine cfg now mi obs s).2 = [] ∨
       ((processMatchWithGoalLine cfg now mi obs s).2 = [Effect.detection mi.id] ∧
         cfg = true ∧
         (getMatch s mi.id = none ∨
           ∃ ex, getMatch s mi.id = some ex ∧ ex.alert_sent = false) ∧
         ∃ q, getMatch (processMatchWithGoalLine cfg now mi obs s).1 mi.id = some q ∧
           q.alert_sent = true)) := by
  cases obs with
  | none =>
    cases hm : getMatch s mi.id with
    | none =>
      have hstep : processMatchWithGoalLine cfg now mi none s =
          (saveMatchWithGoalLine now mi none s, []) := by
        simp [processMatchWithGoalLine, hm]
      refine ⟨fun r => r, fun r => rfl, fun r => rfl, fun r => rfl, fun r h => h,
        Or.inr ⟨rfl, newRow now mi none false, rfl, rfl, rfl, ?_⟩, Or.inl (by rw [hstep])⟩
      rw [hstep, updRow_id_tab]
      rfl
    | some ex =>
      have hstep : processMatchWithGoalLine cfg now mi none s =
          (updateMatchScore mi.id mi.score s, []) := by
        simp [processMatchWithGoalLine, hm]
      exact ⟨scoreUpd mi.score,
        fun r => rfl, fun r => rfl, fun r => rfl, fun r h => h,
        Or.inl (by rw [hstep]; rfl), Or.inl (by rw [hstep])⟩
  | some glr =>
    by_cases hth : glr.handicap = getTargetGoalLine mi.leagueId
    · cases hm : getMatch s mi.id with
      | none =>
        have hs1 : getMatch (insertMatch (newRow now mi (some glr.handicap) true) s) mi.id =
            some (newRow now mi (some glr.handicap) true) := by
          rw [getMatch_insertMatch, hm]
          simp [newRow]
        cases cfg with
        | true =>
          have hstep : processMatchWithGoalLine true now mi (some glr) s =
              (saveGoalLineHistory mi.id glr.handicap glr.overOdds now
                (updRow mi.id alertUpd
                  (insertMatch (newRow now mi (some glr.handicap) true) s)),
               [Effect.detection mi.id]) := by
            simp only [processMatchWithGoalLine, hm]
            rw [if_pos hth]
            simp only [handleTargetGoalLineDetection, hs1, sendTargetDetectionAlert, if_pos]
          have hpost : getMatch (processMatchWithGoalLine true now mi (some glr) s).1 mi.id =
              some (alertUpd (newRow now mi (some glr.handicap) true)) := by
            rw [hstep]
            simp only
            rw [getMatch_saveGoalLineHistory]
            exact getMatch_updRow_self _ (fun r => rfl) hs1
          refine ⟨alertUpd,
            fun r => rfl, fun r => rfl, fun r => rfl, fun r _ => rfl,
            Or.inr ⟨rfl, newRow now mi (some glr.handicap) true, rfl, rfl, rfl, ?_⟩,
            Or.inr ⟨by rw [hstep], rfl, Or.inl rfl, ⟨_, hpost, rfl⟩⟩⟩
          rw [hstep]
          exact matchesTab_saveGoalLineHistory _ _ _ _ _
        | false =>
          have hstep : processMatchWithGoalLine false now mi (some glr) s =
              (saveGoalLineHistory mi.id glr.handicap glr.overOdds now
                (insertMatch (newRow now mi (some glr.handicap) true) s), []) := by
            simp only [processMatchWithGoalLine, hm]
            rw [if_pos hth]
            simp only [handleTargetGoalLineDetection, hs1, sendTargetDetectionAlert]
            simp
          refine ⟨fun r => r, fun r => rfl, fun r => rfl, fun r => rfl, fun r h => h,
            Or.inr ⟨rfl, newRow now mi (some glr.handicap) true, rfl, rfl, rfl, ?_⟩,
            Or.inl (by rw [hstep])⟩
          rw [hstep, updRow_id_tab]
          exact matchesTab_saveGoalLineHistory _ _ _ _ _
      | some ex =>
        by_cases hal : ex.alert_sent = false
        · cases cfg with
          | true =>
            have hstep : processMatchWithGoalLine true now mi (some glr) s =
                (saveGoalLineHistory mi.id glr.handicap glr.overOdds now
                  (updRow mi.id alertUpd
                    (markMatchAsTouchedTarget mi.id glr.handicap mi.score s)),
                 [Effect.detection mi.id]) := by
              simp only [processMatchWithGoalLine, hm]
              rw [if_pos hth, if_pos hal]
              simp only [sendTargetDetectionAlert, if_pos]
            have hcomb := updRow_updRow mi.id (touchUpd glr.handicap mi.score)
              alertUpd (fun r => rfl) s
            have hpost : getMatch (processMatchWithGoalLine true now mi (some glr) s).1 mi.id =
                some (alertUpd (touchUpd glr.handicap mi.score ex)) := by
              rw [hstep]
              simp only
              rw [getMatch_saveGoalLineHistory]
              show getMatch (updRow mi.id alertUpd
                (updRow mi.id (touchUpd glr.handicap mi.score) s)) mi.id = _
              rw [hcomb]
              exact getMatch_updRow_self _ (fun r => rfl) hm
            refine ⟨fun r => alertUpd (touchUpd glr.handicap mi.score r),
              fun r => rfl, fun r => rfl, fun r => rfl, fun r _ => rfl,
              Or.inl ?_, Or.inr ⟨by rw [hstep], rfl, Or.inr ⟨ex, rfl, hal⟩,
                ⟨_, hpost, rfl⟩⟩⟩
            rw [hstep]
            simp only
            rw [matchesTab_saveGoalLineHistory]
            show (updRow mi.id alertUpd
              (updRow mi.id (touchUpd glr.handicap mi.score) s)).matchesTab = _
            rw [hcomb]
          | false =>
            have hstep : processMatchWithGoalLine false now mi (some glr) s =
                (saveGoalLineHistory mi.id glr.handicap glr.overOdds now
                  (markMatchAsTouchedTarget mi.id glr.handicap mi.score s), []) := by
              simp only [processMatchWithGoalLine, hm]
              rw [if_pos hth, if_pos hal]
              simp [sendTargetDetectionAlert]
            exact ⟨touchUpd glr.handicap mi.score,
              fun r => rfl, fun r => rfl, fun r => rfl, fun r h => h,
              Or.inl (by rw [hstep]; exact matchesTab_saveGoalLineHistory _ _ _ _ _),
              Or.inl (by rw [hstep])⟩
        · have hstep : processMatchWithGoalLine cfg now mi (some glr) s =
              (saveGoalLineHistory mi.id glr.handicap glr.overOdds now
                (updateMatchScoreAndGoalLine mi.id mi.score glr.handicap s), []) := by
            simp only [processMatchWithGoalLine, hm]
            rw [if_pos hth, if_neg (by simpa using hal)]
          exact ⟨scoreGoalUpd mi.score glr.handicap,
            fun r => rfl, fun r => rfl, fun r => rfl, fun r h => h,
            Or.inl (by rw [hstep]; exact matchesTab_saveGoalLineHistory _ _ _ _ _),
            Or.inl (by rw [hstep])⟩
    · cases hm : getMatch s mi.id with
      | none =>
        have hstep : processMatchWithGoalLine cfg now mi (some glr) s =
            (saveGoalLineHistory mi.id glr.handicap glr.overOdds now
              (saveMatchWithGoalLine now mi (some glr.handicap) s), []) := by
          simp only [processMatchWithGoalLine, hm]
          rw [if_neg hth]
        refine ⟨fun r => r, fun r => rfl, fun r => rfl, fun r => rfl, fun r h => h,
          Or.inr ⟨rfl, newRow now mi (some glr.handicap) false, rfl, rfl, rfl, ?_⟩,
          Or.inl (by rw [hstep])⟩
        rw [hstep, updRow_id_tab]
        exact matchesTab_saveGoalLineHistory _ _ _ _ _
      | some ex =>
        by_cases htc : ex.touched_15 = true
        · have hstep : processMatchWithGoalLine cfg now mi (some glr) s =
              (saveGoalLineHistory mi.id glr.handicap glr.overOdds now
                (updateMatchScoreAndGoalLine mi.id mi.score glr.handicap s), []) := by
            simp only [processMatchWithGoalLine, hm]
            rw [if_neg hth]
            simp [htc]
          exact ⟨scoreGoalUpd mi.score glr.handicap,
            fun r => rfl, fun r => rfl, fun r => rfl, fun r h => h,
            Or.inl (by rw [hstep]; exact matchesTab_saveGoalLineHistory _ _ _ _ _),
            Or.inl (by rw [hstep])⟩
        · have hstep : processMatchWithGoalLine cfg now mi (some glr) s =
              (saveGoalLineHistory mi.id glr.handicap glr.overOdds now
                (updateMatchGoalLine mi.id glr.handicap mi.score s), []) := by
            simp only [processMatchWithGoalLine, hm]
            rw [if_neg hth]
            simp [htc]
          exact ⟨goalScoreUpd glr.handicap mi.score,
            fun r => rfl, fun r => rfl, fun r => rfl, fun r h => h,
            Or.inl (by rw [hstep]; exact matchesTab_saveGoalLineHistory _ _ _ _ _),
            Or.inl (by rw [hstep])⟩

/-- Row preservation across an observe step: status and completion flag
are unchanged, the detection-alert flag is never cleared. -/
theorem observe_row (cfg : Bool) (now : Nat) (mi : MatchInput)
    (obs : Option GoalLineResult) (s : DBState) (id : String) (m : MatchRow)
    (h1 : getMatch s id = some m) :
    ∃ m', getMatch (processMatchWithGoalLine cfg now mi obs s).1 id = some m' ∧
      m'.status = m.status ∧ m'.result_alert_sent = m.result_alert_sent ∧
      (m.alert_sent = true → m'.alert_sent = true) := by
  obtain ⟨g, hid, hst, hres, hal, hshape, -⟩ := observe_master cfg now mi obs s
  rcases hshape with h | ⟨habs, nr, hnrid, hnrst, hnrres, h⟩
  · rw [getMatch_eq_of_tab h id, getMatch_updRow mi.id id g hid s, h1]
    by_cases hc : m.match_id = mi.id
    · exact ⟨g m, by simp [hc], hst m, hres m, hal m⟩
    · exact ⟨m, by simp [hc], rfl, rfl, fun h => h⟩
  · have h1' : getMatch (insertMatch nr s) id = some m := by
      rw [getMatch_insertMatch, h1]
      rfl
    rw [getMatch_eq_of_tab h id, getMatch_updRow mi.id id g hid _, h1']
    by_cases hc : m.match_id = mi.id
    · exact ⟨g m, by simp [hc], hst m, hres m, hal m⟩
    · exact ⟨m, by simp [hc], rfl, rfl, fun h => h⟩

/-- Frame: an observe step leaves every other id's row unchanged. -/
theorem observe_frame2 (cfg : Bool) (now : Nat) (mi : MatchInput)
    (obs : Option GoalLineResult) (s : DBState) (id : String) (hne : id ≠ mi.id) :
    getMatch (processMatchWithGoalLine cfg now mi obs s).1 id = getMatch s id := by
  obtain ⟨g, hid, -, -, -, hshape, -⟩ := observe_master cfg now mi obs s
  rcases hshape with h | ⟨habs, nr, hnrid, -, -, h⟩
  · rw [getMatch_eq_of_tab h id]
    exact getMatch_updRow_other g hid hne
  · rw [getMatch_eq_of_tab h id, getMatch_updRow_other g hid hne, getMatch_insertMatch]
    have hno : (if nr.match_id = id then some nr else none) = none := by
      rw [if_neg]
      rw [hnrid]
      exact fun he => hne he.symm
    rw [hno]
    cases getMatch s id <;> rfl

/-! ## Status order and per-operation monotonicity -/

theorem statusLE_refl (a : MatchStatus) : statusLE a a := Or.inl rfl

theorem statusLE_trans {a b c : MatchStatus} (h1 : statusLE a b) (h2 : statusLE b c) :
    statusLE a c := by
  cases a <;> cases b <;> cases c <;> simp_all [statusLE]

theorem statusLE_to_finished (a : MatchStatus) : statusLE a MatchStatus.finished := by
  cases a
  · exact Or.inr ⟨rfl, rfl⟩
  · exact Or.inl rfl

theorem updRow_row (id0 : String) (f : MatchRow → MatchRow)
    (hf : ∀ r, (f r).match_id = r.match_id) (s : DBState) (id : String)
    (m : MatchRow) (h1 : getMatch s id = some m) :
    ∃ m', getMatch (updRow id0 f s) id = some m' ∧ (m' = m ∨ m' = f m) := by
  rw [getMatch_updRow id0 id f hf s, h1]
  by_cases hc : m.match_id = id0
  · exact ⟨f m, by simp [hc], Or.inr rfl⟩
  · exact ⟨m, by simp [hc], Or.inl rfl⟩

theorem markFinished_row (cfg : Bool) (env : FinishEnv) (m : MatchRow)
    (s : DBState) (id : String) (mrow : MatchRow)
    (h1 : getMatch s id = some mrow) :
    ∃ r, getMatch (markMatchAsFinished cfg env m s).1 id = some r ∧
      statusLE mrow.status r.status ∧
      (mrow.alert_sent = true → r.alert_sent = true) := by
  rcases markFinished_shape cfg env m s with h | h <;> rw [h]
  · obtain ⟨r, hr, hcase⟩ := updRow_row m.match_id (finishUpd env m) (fun r => rfl) s id mrow h1
    refine ⟨r, hr, ?_, ?_⟩
    · rcases hcase with hc | hc <;> subst hc
      · exact statusLE_refl _
      · exact statusLE_to_finished _
    · rcases hcase with hc | hc <;> subst hc <;> exact fun h => h
  · obtain ⟨r, hr, hcase⟩ := updRow_row m.match_id
      (fun r => { finishUpd env m r with result_alert_sent := true })
      (fun r => rfl) s id mrow h1
    refine ⟨r, hr, ?_, ?_⟩
    · rcases hcase with hc | hc <;> subst hc
      · exact statusLE_refl _
      · exact statusLE_to_finished _
    · rcases hcase with hc | hc <;> subst hc <;> exact fun h => h

theorem finishFold_row (cfg : Bool) (env : FinishEnv) (act : List String)
    (L : List MatchRow) :
    ∀ (s : DBState) (id : String) (m : MatchRow), getMatch s id = some m →
    ∃ m', getMatch (finishFold cfg env act L s).1 id = some m' ∧
      statusLE m.status m'.status ∧
      (m.alert_sent = true → m'.alert_sent = true) := by
  induction L with
  | nil => intro s id m h1; exact ⟨m, h1, statusLE_refl _, fun h => h⟩
  | cons x rest ih =>
    intro s id m h1
    unfold finishFold
    split
    · exact ih s id m h1
    · simp only
      obtain ⟨r, hr, hst, hal⟩ := markFinished_row cfg env x s id m h1
      obtain ⟨m', hm', hst', hal'⟩ := ih _ id r hr
      exact ⟨m', hm', statusLE_trans hst hst', fun h => hal' (hal h)⟩

theorem backfillScoresFold_row (remote : String → Option String) (L : List MatchRow) :
    ∀ (s : DBState) (id : String) (m : MatchRow), getMatch s id = some m →
    ∃ m', getMatch (backfillScoresFold remote L s) id = some m' ∧
      m'.status = m.status ∧ m'.result_alert_sent = m.result_alert_sent ∧
      (m.alert_sent = true → m'.alert_sent = true) := by
  induction L with
  | nil => intro s id m h1; exact ⟨m, h1, rfl, rfl, fun h => h⟩
  | cons x rest ih =>
    intro s id m h1
    simp only [backfillScoresFold]
    split
    · split
      · rename_i ss hss
        split
        · rename_i h a hh ha
          obtain ⟨r, hr, hcase⟩ :=
            updRow_row x.match_id (backfillScoreUpd ss h a) (fun r => rfl) s id m h1
          obtain ⟨m', hm', a1, a2, a3⟩ := ih _ id r hr
          rcases hcase with hc | hc <;> subst hc
          · exact ⟨m', hm', a1, a2, a3⟩
          · exact ⟨m', hm', a1, a2, a3⟩
        · exact ih s id m h1
      · exact ih s id m h1
    · exact ih s id m h1

theorem backfillGLFold_row (oracle : String → Option GoalLineBackfill)
    (L : List MatchRow) :
    ∀ (s : DBState) (id : String) (m : MatchRow), getMatch s id = some m →
    ∃ m', getMatch (backfillGLFold oracle L s) id = some m' ∧
      m'.status = m.status ∧ m'.result_alert_sent = m.result_alert_sent ∧
      (m.alert_sent = true → m'.alert_sent = true) := by
  induction L with
  | nil => intro s id m h1; exact ⟨m, h1, rfl, rfl, fun h => h⟩
  | cons x rest ih =>
    intro s id m h1
    unfold backfillGLFold
    dsimp only
    split
    · rename_i g hg
      obtain ⟨r, hr, hcase⟩ :=
        updRow_row x.match_id (backfillGLUpd g) (fun r => rfl) s id m h1
      obtain ⟨m', hm', a1, a2, a3⟩ := ih _ id r hr
      rcases hcase with hc | hc <;> subst hc
      · exact ⟨m', hm', a1, a2, a3⟩
      · exact ⟨m', hm', a1, a2, a3⟩
    · exact ih s id m h1

theorem rows_unique (s : DBState) (hnd : NodupIds s) {a b : MatchRow}
    (ha : a ∈ s.matchesTab) (hb : b ∈ s.matchesTab)
    (hab : a.match_id = b.match_id) : a = b := by
  exact List.inj_on_of_nodup_map hnd ha hb hab

theorem enforce_row (maxM : Nat) (s : DBState) (id : String) (m m' : MatchRow)
    (hnd : NodupIds s) (h1 : getMatch s id = some m)
    (h2 : getMatch (enforceMatchLimit maxM s) id = some m') : m' = m := by
  simp only [enforceMatchLimit] at h2
  split at h2
  · rw [h1] at h2
    exact (Option.some.inj h2).symm
  · split at h2
    · rw [h1] at h2
      exact (Option.some.inj h2).symm
    · have hm'mem : m' ∈ s.matchesTab := by
        have := (getMatch_some h2).1
        simp only at this
        exact List.mem_of_mem_filter this
      have hm'id : m'.match_id = id := (getMatch_some h2).2
      exact rows_unique s hnd hm'mem (getMatch_some h1).1
        (hm'id.trans (getMatch_some h1).2.symm)

/-- Status and basic flags across one engine operation. -/
theorem applyOp_row (cfg : Bool) (op : Op) (s : DBState) (id : String)
    (m m' : MatchRow) (hnd : NodupIds s) (h1 : getMatch s id = some m)
    (h2 : getMatch (applyOp cfg op s).1 id = some m') :
    statusLE m.status m'.status := by
  cases op with
  | observe now mi obs =>
    simp only [applyOp] at h2
    obtain ⟨m'', hm'', hst, -, -⟩ := observe_row cfg now mi obs s id m h1
    rw [hm''] at h2
    have heq := Option.some.inj h2
    rw [← heq, hst]
    exact statusLE_refl _
  | finishCheck env activeIds =>
    simp only [applyOp, checkFinishedMatchesV2] at h2
    obtain ⟨m'', hm'', hst, -⟩ := finishFold_row cfg env activeIds _ s id m h1
    rw [hm''] at h2
    have heq := Option.some.inj h2
    rw [← heq]
    exact hst
  | enforce maxM =>
    have := enforce_row maxM s id m m' hnd h1 h2
    rw [this]
    exact statusLE_refl _
  | backfillScores remote =>
    obtain ⟨m'', hm'', hst, -, -⟩ := backfillScoresFold_row remote _ s id m h1
    have h2' := h2
    simp only [applyOp, backfillMissingScores] at h2'
    rw [hm''] at h2'
    have heq := Option.some.inj h2'
    rw [← heq, hst]
    exact statusLE_refl _
  | backfillGoalLines oracle =>
    obtain ⟨m'', hm'', hst, -, -⟩ := backfillGLFold_row oracle _ s id m h1
    have h2' := h2
    simp only [applyOp, backfillMissingGoalLines] at h2'
    rw [hm''] at h2'
    have heq := Option.some.inj h2'
    rw [← heq, hst]
    exact statusLE_refl _

/-! ## Uniqueness of match ids is preserved by every operation -/

theorem updRow_ids (id : String) (f : MatchRow → MatchRow)
    (hf : ∀ r, (f r).match_id = r.match_id) (s : DBState) :
    (updRow id f s).matchesTab.map (fun m => m.match_id) =
      s.matchesTab.map (fun m => m.match_id) := by
  unfold updRow
  simp only [List.map_map]
  have hc : ((fun m : MatchRow => m.match_id) ∘
      (fun m => if m.match_id = id then f m else m)) =
      (fun m : MatchRow => m.match_id) := by
    funext r
    by_cases hr : r.match_id = id <;> simp [Function.comp, hr, hf]
  rw [hc]

theorem updRow_nodup (id : String) (f : MatchRow → MatchRow)
    (hf : ∀ r, (f r).match_id = r.match_id) (s : DBState)
    (hnd : NodupIds s) : NodupIds (updRow id f s) := by
  unfold NodupIds at *
  rw [updRow_ids id f hf s]
  exact hnd

theorem insert_nodup (r : MatchRow) (s : DBState)
    (habs : getMatch s r.match_id = none) (hnd : NodupIds s) :
    NodupIds (insertMatch r s) := by
  unfold NodupIds insertMatch at *
  simp only [List.map_append, List.map_cons, List.map_nil]
  rw [List.nodup_append]
  refine ⟨hnd, List.nodup_singleton _, ?_⟩
  have hni := (getMatch_none_iff s r.match_id).mp habs
  intro x hx hx2
  simp only [List.mem_singleton] at hx2
  obtain ⟨mm, hmm, hmmid⟩ := List.mem_map.mp hx
  exact hni mm hmm (by rw [hmmid, hx2])

theorem observe_nodup (cfg : Bool) (now : Nat) (mi : MatchInput)
    (obs : Option GoalLineResult) (s : DBState) (hnd : NodupIds s) :
    NodupIds (processMatchWithGoalLine cfg now mi obs s).1 := by
  obtain ⟨g, hid, -, -, -, hshape, -⟩ := observe_master cfg now mi obs s
  rcases hshape with h | ⟨habs, nr, hnrid, -, -, h⟩
  · have := updRow_nodup mi.id g hid s hnd
    unfold NodupIds at this ⊢
    rw [h]
    exact this
  · have hins : NodupIds (insertMatch nr s) :=
      insert_nodup nr s (by rw [hnrid]; exact habs) hnd
    have := updRow_nodup mi.id g hid (insertMatch nr s) hins
    unfold NodupIds at this ⊢
    rw [h]
    exact this

theorem markFinished_nodup (cfg : Bool) (env : FinishEnv) (m : MatchRow)
    (s : DBState) (hnd : NodupIds s) :
    NodupIds (markMatchAsFinished cfg env m s).1 := by
  rcases markFinished_shape cfg env m s with h | h <;> rw [h]
  · exact updRow_nodup m.match_id (finishUpd env m) (fun r => rfl) s hnd
  · exact updRow_nodup m.match_id
      (fun r => { finishUpd env m r with result_alert_sent := true })
      (fun r => rfl) s hnd

theorem finishFold_nodup (cfg : Bool) (env : FinishEnv) (act : List String)
    (L : List MatchRow) :
    ∀ s : DBState, NodupIds s → NodupIds (finishFold cfg env act L s).1 := by
  induction L with
  | nil => intro s hnd; exact hnd
  | cons x rest ih =>
    intro s hnd
    unfold finishFold
    split
    · exact ih s hnd
    · exact ih _ (markFinished_nodup cfg env x s hnd)

theorem enforce_nodup (maxM : Nat) (s : DBState) (hnd : NodupIds s) :
    NodupIds (enforceMatchLimit maxM s) := by
  simp only [enforceMatchLimit]
  split
  · exact hnd
  · split
    · exact hnd
    · unfold NodupIds at *
      simp only
      exact hnd.sublist (List.Sublist.map _ (List.filter_sublist _))

theorem backfillScoresFold_nodup (remote : String → Option String)
    (L : List MatchRow) :
    ∀ s : DBState, NodupIds s → NodupIds (backfillScoresFold remote L s) := by
  induction L with
  | nil => intro s hnd; exact hnd
  | cons x rest ih =>
    intro s hnd
    simp only [backfillScoresFold]
    split
    · split
      · rename_i ss hss
        split
        · rename_i h a hh ha
          exact ih _ (updRow_nodup x.match_id (backfillScoreUpd ss h a) (fun r => rfl) s hnd)
        · exact ih s hnd
      · exact ih s hnd
    · exact ih s hnd

theorem backfillGLFold_nodup (oracle : String → Option GoalLineBackfill)
    (L : List MatchRow) :
    ∀ s : DBState, NodupIds s → NodupIds (backfillGLFold oracle L s) := by
  induction L with
  | nil => intro s hnd; exact hnd
  | cons x rest ih =>
    intro s hnd
    simp only [backfillGLFold]
    split
    · rename_i g hg
      exact ih _ (updRow_nodup x.match_id (backfillGLUpd g) (fun r => rfl) s hnd)
    · exact ih s hnd

theorem applyOp_nodup (cfg : Bool) (op : Op) (s : DBState) (hnd : NodupIds s) :
    NodupIds (applyOp cfg op s).1 := by
  cases op with
  | observe now mi obs => exact observe_nodup cfg now mi obs s hnd
  | finishCheck env activeIds => exact finishFold_nodup cfg env activeIds _ s hnd
  | enforce maxM => exact enforce_nodup maxM s hnd
  | backfillScores remote => exact backfillScoresFold_nodup remote _ s hnd
  | backfillGoalLines oracle => exact backfillGLFold_nodup oracle _ s hnd

/-! ## Claim C7 — status is monotonic -/

/-- C7: along any sequence of engine operations during which the record
stays present, its status either stays the same or moves from live to
finished; no sequence moves a finished record back to live. -/
theorem claim_C7_status_monotonic (cfg : Bool) (ops : List Op) :
    ∀ (s : DBState) (id : String) (m m' : MatchRow), NodupIds s →
    (∀ n, n ≤ ops.length →
      ((getMatch (applyOps cfg (ops.take n) s).1 id).isSome = true)) →
    getMatch s id = some m →
    getMatch (applyOps cfg ops s).1 id = some m' →
    m.status = m'.status ∨
      (m.status = MatchStatus.live ∧ m'.status = MatchStatus.finished) := by
  induction ops with
  | nil =>
    intro s id m m' _ _ h1 h2
    simp only [applyOps] at h2
    rw [h1] at h2
    exact Or.inl (by rw [Option.some.inj h2])
  | cons op rest ih =>
    intro s id m m' hnd hpres h1 h2
    have hmid : (getMatch (applyOp cfg op s).1 id).isSome = true := by
      have := hpres 1 (by simp)
      simpa [applyOps] using this
    obtain ⟨mmid, hmmid⟩ := Option.isSome_iff_exists.mp hmid
    have hstep := applyOp_row cfg op s id m mmid hnd h1 hmmid
    have hnd' := applyOp_nodup cfg op s hnd
    have hpres' : ∀ n, n ≤ rest.length →
        ((getMatch (applyOps cfg (rest.take n) (applyOp cfg op s).1).1 id).isSome = true) := by
      intro n hn
      have := hpres (n + 1) (by simpa using Nat.succ_le_succ hn)
      simpa [applyOps] using this
    have h2' : getMatch (applyOps cfg rest (applyOp cfg op s).1).1 id = some m' := by
      simpa [applyOps] using h2
    exact statusLE_trans hstep (ih (applyOp cfg op s).1 id mmid m' hnd' hpres' hmmid h2')

/-- C7 witness: one live match, one finished-check pass: live to
finished. -/
theorem claim_C7_witness :
    (⟨"m1", none, 1, "H", "A", 0, none, none, some "1-0", MatchStatus.live,
      none, none, none, false, true, false⟩ : MatchRow).status =
      ({ (⟨"m1", none, 1, "H", "A", 0, none, none, some "1-0", MatchStatus.live,
          none, none, none, false, true, false⟩ : MatchRow) with
          status := MatchStatus.finished,
          final_score_home := some 1, final_score_away := some 0,
          current_score := some "1-0", match_end_time := some 7 } : MatchRow).status ∨
    ((⟨"m1", none, 1, "H", "A", 0, none, none, some "1-0", MatchStatus.live,
       none, none, none, false, true, false⟩ : MatchRow).status = MatchStatus.live ∧
     ({ (⟨"m1", none, 1, "H", "A", 0, none, none, some "1-0", MatchStatus.live,
         none, none, none, false, true, false⟩ : MatchRow) with
         status := MatchStatus.finished,
         final_score_home := some 1, final_score_away := some 0,
         current_score := some "1-0", match_end_time := some 7 } : MatchRow).status =
       MatchStatus.finished) :=
  claim_C7_status_monotonic false [Op.finishCheck ⟨fun _ => none, 7⟩ []]
    ⟨[⟨"m1", none, 1, "H", "A", 0, none, none, some "1-0", MatchStatus.live,
       none, none, none, false, true, false⟩], []⟩ "m1"
    ⟨"m1", none, 1, "H", "A", 0, none, none, some "1-0", MatchStatus.live,
     none, none, none, false, true, false⟩
    { (⟨"m1", none, 1, "H", "A", 0, none, none, some "1-0", MatchStatus.live,
        none, none, none, false, true, false⟩ : MatchRow) with
        status := MatchStatus.finished,
        final_score_home := some 1, final_score_away := some 0,
        current_score := some "1-0", match_end_time := some 7 }
    (by decide) (by decide) rfl rfl

/-! ## Effect counting -/

theorem countDet_append (id : String) (l1 l2 : List Effect) :
    countDet id (l1 ++ l2) = countDet id l1 + countDet id l2 := by
  unfold countDet
  rw [List.filter_append, List.length_append]

theorem countComp_append (id : String) (l1 l2 : List Effect) :
    countComp id (l1 ++ l2) = countComp id l1 + countComp id l2 := by
  unfold countComp
  rw [List.filter_append, List.length_append]

theorem countDet_completion (id x : String) :
    countDet id [Effect.completion x] = 0 := by
  simp [countDet]

theorem countComp_detection (id x : String) :
    countComp id [Effect.detection x] = 0 := by
  simp [countComp]

theorem countDet_detection (id x : String) :
    countDet id [Effect.detection x] = if x = id then 1 else 0 := by
  by_cases hx : x = id <;> simp [countDet, hx, Effect.detection.injEq]

theorem countComp_completion (id x : String) :
    countComp id [Effect.completion x] = if x = id then 1 else 0 := by
  by_cases hx : x = id <;> simp [countComp, hx, Effect.completion.injEq]

theorem countDet_nil (id : String) : countDet id [] = 0 := rfl

theorem countComp_nil (id : String) : countComp id [] = 0 := rfl

theorem statusLE_finished {b : MatchStatus} (h : statusLE MatchStatus.finished b) :
    b = MatchStatus.finished := by
  rcases h with h | ⟨h, -⟩
  · exact h.symm
  · exact MatchStatus.noConfusion h

/-- Effect trace of marking one match finished: empty, or exactly one
completion notification for that match, in which case its row is stored
as finished. -/
theorem markFinished_effs (cfg : Bool) (env : FinishEnv) (m : MatchRow) (s : DBState) :
    (markMatchAsFinished cfg env m s).2 = [] ∨
    ((markMatchAsFinished cfg env m s).2 = [Effect.completion m.match_id] ∧
      ∃ q, getMatch (markMatchAsFinished cfg env m s).1 m.match_id = some q ∧
        q.status = MatchStatus.finished) := by
  unfold markMatchAsFinished
  dsimp only
  split
  · split
    · rename_i val hval
      split
      · right
        refine ⟨rfl, ?_⟩
        have hval0 := hval
        rw [getMatch_updRow m.match_id m.match_id (finishUpd env m) (fun r => rfl) s] at hval0
        cases horig : getMatch s m.match_id with
        | none =>
          rw [horig] at hval0
          exact Option.noConfusion hval0
        | some orig =>
          rw [horig] at hval0
          have hoid : orig.match_id = m.match_id := (getMatch_some horig).2
          have hval' : (if orig.match_id = m.match_id then finishUpd env m orig else orig) = val :=
            Option.some.inj hval0
          rw [if_pos hoid] at hval'
          have hvs : val.status = MatchStatus.finished := by
            rw [← hval']
            rfl
          exact ⟨{ val with result_alert_sent := true },
            getMatch_updRow_self _ (fun r => rfl) hval, hvs⟩
      · left
        rfl
    · left
      rfl
  · left
    rfl

theorem getMatch_of_mem (s : DBState) (hnd : NodupIds s) (m : MatchRow)
    (hm : m ∈ s.matchesTab) : getMatch s m.match_id = some m := by
  cases hg : getMatch s m.match_id with
  | none => exact absurd rfl ((getMatch_none_iff s m.match_id).mp hg m hm)
  | some y =>
    rw [rows_unique s hnd (getMatch_some hg).1 hm (getMatch_some hg).2]

/-- Counting lemma for one finished-match pass over a coherent live
snapshot: no detection notifications, at most one completion notification
per id, a counted completion leaves the row finished, and a row already
finished before the pass gets no completion notification. -/
theorem finishFold8 (cfg : Bool) (env : FinishEnv) (act : List String)
    (L : List MatchRow) :
    ∀ (s : DBState) (id : String),
    (L.map (fun x => x.match_id)).Nodup →
    (∀ x ∈ L, getMatch s x.match_id = some x) →
    (∀ x ∈ L, x.status = MatchStatus.live) →
    countDet id (finishFold cfg env act L s).2 = 0 ∧
    countComp id (finishFold cfg env act L s).2 ≤ 1 ∧
    (countComp id (finishFold cfg env act L s).2 = 1 →
      ∃ q, getMatch (finishFold cfg env act L s).1 id = some q ∧
        q.status = MatchStatus.finished) ∧
    (∀ m, getMatch s id = some m → m.status = MatchStatus.finished →
      countComp id (finishFold cfg env act L s).2 = 0) := by
  induction L with
  | nil =>
    intro s id _ _ _
    refine ⟨rfl, by simp [finishFold, countComp], ?_, fun m _ _ => rfl⟩
    intro h
    simp [finishFold, countComp] at h
  | cons x rest ih =>
    intro s id hnodup hcoh hlive
    have hnodup' : (rest.map (fun y => y.match_id)).Nodup :=
      (List.nodup_cons.mp (by simpa using hnodup)).2
    have hxni : x.match_id ∉ rest.map (fun y => y.match_id) :=
      (List.nodup_cons.mp (by simpa using hnodup)).1
    unfold finishFold
    split
    · exact ih s id hnodup'
        (fun y hy => hcoh y (List.mem_cons_of_mem _ hy))
        (fun y hy => hlive y (List.mem_cons_of_mem _ hy))
    · simp only
      have hx := hcoh x (List.mem_cons_self x rest)
      have hcoh' : ∀ y ∈ rest,
          getMatch (markMatchAsFinished cfg env x s).1 y.match_id = some y := by
        intro y hy
        rw [markFinished_frame cfg env x s y.match_id
          (fun he => hxni (he ▸ List.mem_map_of_mem _ hy))]
        exact hcoh y (List.mem_cons_of_mem _ hy)
      have hlive' : ∀ y ∈ rest, y.status = MatchStatus.live :=
        fun y hy => hlive y (List.mem_cons_of_mem _ hy)
      obtain ⟨q0, hq0, hq0fin, -⟩ := markFinished_self cfg env x s x hx
      obtain ⟨ihDet, ihLe, ihOne, ihFin⟩ :=
        ih (markMatchAsFinished cfg env x s).1 id hnodup' hcoh' hlive'
      by_cases hxid : x.match_id = id
      · subst hxid
        have hrestzero := ihFin q0 hq0 hq0fin
        rcases markFinished_effs cfg env x s with heff | ⟨heff, q1, hq1, hq1fin⟩
        · refine ⟨?_, ?_, ?_, fun m _ _ => ?_⟩
          · rw [countDet_append, heff, countDet_nil, ihDet]
          · rw [countComp_append, heff, countComp_nil, hrestzero]
            exact Nat.zero_le 1
          · intro hone
            rw [countComp_append, heff, countComp_nil, hrestzero] at hone
            exact absurd hone (by decide)
          · rw [countComp_append, heff, countComp_nil, hrestzero]
        · refine ⟨?_, ?_, ?_, ?_⟩
          · rw [countDet_append, heff, countDet_completion, ihDet]
          · rw [countComp_append, heff, countComp_completion, hrestzero]
            simp
          · intro _
            obtain ⟨qq, hqq, hqqfin⟩ := finishFold_finished_stays cfg env act rest
              (markMatchAsFinished cfg env x s).1 x.match_id q1 hq1 hq1fin
            exact ⟨qq, hqq, hqqfin⟩
          · intro m hm hfin
            rw [hx] at hm
            have hxm : x = m := Option.some.inj hm
            have := hlive x (List.mem_cons_self x rest)
            rw [hxm, hfin] at this
            exact MatchStatus.noConfusion this
      · have hne : id ≠ x.match_id := fun he => hxid he.symm
        have heffcomp : countComp id (markMatchAsFinished cfg env x s).2 = 0 := by
          rcases markFinished_effs cfg env x s with heff | ⟨heff, -⟩
          · rw [heff]; rfl
          · rw [heff, countComp_completion, if_neg hxid]
        have heffdet : countDet id (markMatchAsFinished cfg env x s).2 = 0 := by
          rcases markFinished_effs cfg env x s with heff | ⟨heff, -⟩
          · rw [heff]; rfl
          · rw [heff, countDet_completion]
        refine ⟨?_, ?_, ?_, ?_⟩
        · rw [countDet_append, heffdet, ihDet]
        · rw [countComp_append, heffcomp]
          simpa using ihLe
        · intro hone
          rw [countComp_append, heffcomp] at hone
          simpa using ihOne (by simpa using hone)
        · intro m hm hfin
          rw [countComp_append, heffcomp]
          have hm' : getMatch (markMatchAsFinished cfg env x s).1 id = some m := by
            rw [markFinished_frame cfg env x s id hne]
            exact hm
          simpa using ihFin m hm' hfin

/-- The live snapshot taken by `checkFinishedMatchesV2` has distinct ids,
is coherent with the store, and holds only live rows. -/
theorem liveSnapshot_hyps (s : DBState) (hnd : NodupIds s) :
    ((s.matchesTab.filter (fun m => decide (m.status = MatchStatus.live))).map
      (fun x => x.match_id)).Nodup ∧
    (∀ x ∈ s.matchesTab.filter (fun m => decide (m.status = MatchStatus.live)),
      getMatch s x.match_id = some x) ∧
    (∀ x ∈ s.matchesTab.filter (fun m => decide (m.status = MatchStatus.live)),
      x.status = MatchStatus.live) := by
  refine ⟨?_, ?_, ?_⟩
  · exact List.Nodup.sublist
      ((List.filter_sublist s.matchesTab).map (fun x => x.match_id)) hnd
  · intro x hx
    exact getMatch_of_mem s hnd x (List.mem_of_mem_filter hx)
  · intro x hx
    simpa using (List.mem_filter.mp hx).2

/-- Per-operation detection accounting: at most one detection
notification for an id per non-evicting operation; one is only emitted
into a previously absent or un-alerted row and leaves the alert flag set;
an already-alerted row draws no further detection notification and keeps
its flag. -/
theorem applyOp8det (cfg : Bool) (op : Op) (s : DBState) (id : String)
    (hop : op.noEvict) (hnd : NodupIds s) :
    countDet id (applyOp cfg op s).2 ≤ 1 ∧
    (countDet id (applyOp cfg op s).2 = 1 →
      ∃ q, getMatch (applyOp cfg op s).1 id = some q ∧ q.alert_sent = true) ∧
    (∀ m, getMatch s id = some m → m.alert_sent = true →
      countDet id (applyOp cfg op s).2 = 0 ∧
      ∃ q, getMatch (applyOp cfg op s).1 id = some q ∧ q.alert_sent = true) := by
  cases op with
  | observe now mi obs =>
    obtain ⟨g, hid, -, -, -, -, heffs⟩ := observe_master cfg now mi obs s
    rcases heffs with heff | ⟨heff, -, hpre, q, hq, hqal⟩
    · simp only [applyOp]
      rw [heff, countDet_nil]
      refine ⟨Nat.zero_le 1, fun h => absurd h (by decide), ?_⟩
      intro m hm hal
      obtain ⟨m', hm', -, -, hal'⟩ := observe_row cfg now mi obs s id m hm
      exact ⟨rfl, m', hm', hal' hal⟩
    · simp only [applyOp]
      rw [heff, countDet_detection]
      by_cases hx : mi.id = id
      · subst hx
        rw [if_pos rfl]
        refine ⟨Nat.le_refl 1, fun _ => ⟨q, hq, hqal⟩, ?_⟩
        intro m hm hal
        rcases hpre with habs | ⟨ex, hex, hexal⟩
        · rw [hm] at habs
          exact Option.noConfusion habs
        · rw [hm] at hex
          rw [Option.some.inj hex] at hal
          rw [hexal] at hal
          exact Bool.noConfusion hal
      · rw [if_neg hx]
        refine ⟨Nat.zero_le 1, fun h => absurd h (by decide), ?_⟩
        intro m hm hal
        obtain ⟨m', hm', -, -, hal'⟩ := observe_row cfg now mi obs s id m hm
        exact ⟨rfl, m', hm', hal' hal⟩
  | finishCheck env activeIds =>
    obtain ⟨hln, hlc, hll⟩ := liveSnapshot_hyps s hnd
    obtain ⟨hdet, -, -, -⟩ := finishFold8 cfg env activeIds
      (s.matchesTab.filter (fun m => decide (m.status = MatchStatus.live)))
      s id hln hlc hll
    simp only [applyOp, checkFinishedMatchesV2]
    refine ⟨by rw [hdet]; exact Nat.zero_le 1,
      fun h => absurd (hdet ▸ h) (by simp), ?_⟩
    intro m hm hal
    obtain ⟨m', hm', -, hal'⟩ := finishFold_row cfg env activeIds _ s id m hm
    exact ⟨hdet, m', hm', hal' hal⟩
  | enforce maxM => exact absurd hop (fun h => h)
  | backfillScores remote =>
    simp only [applyOp]
    refine ⟨Nat.zero_le 1, fun h => absurd h (by rw [countDet_nil]; decide), ?_⟩
    intro m hm hal
    obtain ⟨m', hm', -, -, hal'⟩ := backfillScoresFold_row remote _ s id m hm
    exact ⟨rfl, m', by simpa [backfillMissingScores] using hm', hal' hal⟩
  | backfillGoalLines oracle =>
    simp only [applyOp]
    refine ⟨Nat.zero_le 1, fun h => absurd h (by rw [countDet_nil]; decide), ?_⟩
    intro m hm hal
    obtain ⟨m', hm', -, -, hal'⟩ := backfillGLFold_row oracle _ s id m hm
    exact ⟨rfl, m', by simpa [backfillMissingGoalLines] using hm', hal' hal⟩

/-- Per-operation completion accounting: at most one completion
notification for an id per non-evicting operation; one leaves the row
finished; an already-finished row draws no further completion
notification and stays finished. -/
theorem applyOp8comp (cfg : Bool) (op : Op) (s : DBState) (id : String)
    (hop : op.noEvict) (hnd : NodupIds s) :
    countComp id (applyOp cfg op s).2 ≤ 1 ∧
    (countComp id (applyOp cfg op s).2 = 1 →
      ∃ q, getMatch (applyOp cfg op s).1 id = some q ∧
        q.status = MatchStatus.finished) ∧
    (∀ m, getMatch s id = some m → m.status = MatchStatus.finished →
      countComp id (applyOp cfg op s).2 = 0 ∧
      ∃ q, getMatch (applyOp cfg op s).1 id = some q ∧
        q.status = MatchStatus.finished) := by
  cases op with
  | observe now mi obs =>
    obtain ⟨g, hid, -, -, -, -, heffs⟩ := observe_master cfg now mi obs s
    have hzero : countComp id (applyOp cfg (Op.observe now mi obs) s).2 = 0 := by
      simp only [applyOp]
      rcases heffs with heff | ⟨heff, -⟩
      · rw [heff, countComp_nil]
      · rw [heff, countComp_detection]
    refine ⟨by rw [hzero]; exact Nat.zero_le 1,
      fun h => absurd (hzero ▸ h) (by simp), ?_⟩
    intro m hm hfin
    obtain ⟨m', hm', hst, -, -⟩ := observe_row cfg now mi obs s id m hm
    exact ⟨hzero, m', hm', hst.trans hfin⟩
  | finishCheck env activeIds =>
    obtain ⟨hln, hlc, hll⟩ := liveSnapshot_hyps s hnd
    obtain ⟨-, hle, hone, hfin⟩ := finishFold8 cfg env activeIds
      (s.matchesTab.filter (fun m => decide (m.status = MatchStatus.live)))
      s id hln hlc hll
    simp only [applyOp, checkFinishedMatchesV2]
    refine ⟨hle, hone, ?_⟩
    intro m hm hmfin
    obtain ⟨m', hm', hst, -⟩ := finishFold_row cfg env activeIds _ s id m hm
    exact ⟨hfin m hm hmfin, m', hm', statusLE_finished (hmfin ▸ hst)⟩
  | enforce maxM => exact absurd hop (fun h => h)
  | backfillScores remote =>
    simp only [applyOp]
    refine ⟨Nat.zero_le 1, fun h => absurd h (by rw [countComp_nil]; decide), ?_⟩
    intro m hm hfin
    obtain ⟨m', hm', hst, -, -⟩ := backfillScoresFold_row remote _ s id m hm
    exact ⟨rfl, m', by simpa [backfillMissingScores] using hm', hst.trans hfin⟩
  | backfillGoalLines oracle =>
    simp only [applyOp]
    refine ⟨Nat.zero_le 1, fun h => absurd h (by rw [countComp_nil]; decide), ?_⟩
    intro m hm hfin
    obtain ⟨m', hm', hst, -, -⟩ := backfillGLFold_row oracle _ s id m hm
    exact ⟨rfl, m', by simpa [backfillMissingGoalLines] using hm', hst.trans hfin⟩

/-- Once a stored row carries `alert_sent`, no later non-evicting
operation emits another detection notification for it. -/
theorem runOpsDetZero (cfg : Bool) (ops : List Op) :
    ∀ (s : DBState), (∀ op ∈ ops, op.noEvict) → NodupIds s →
    ∀ (id : String) (m : MatchRow), getMatch s id = some m →
    m.alert_sent = true → countDet id (applyOps cfg ops s).2 = 0 := by
  induction ops with
  | nil => intro s _ _ id m _ _; rfl
  | cons op rest ih =>
    intro s hops hnd id m hm hal
    obtain ⟨-, -, hkeep⟩ := applyOp8det cfg op s id
      (hops op (List.mem_cons_self op rest)) hnd
    obtain ⟨hstep, q, hq, hqal⟩ := hkeep m hm hal
    have hrest := ih (applyOp cfg op s).1
      (fun o ho => hops o (List.mem_cons_of_mem _ ho))
      (applyOp_nodup cfg op s hnd) id q hq hqal
    show countDet id ((applyOp cfg op s).2 ++
      (applyOps cfg rest (applyOp cfg op s).1).2) = 0
    rw [countDet_append, hstep, hrest]

/-- Once a stored row is finished, no later non-evicting operation emits
another completion notification for it. -/
theorem runOpsCompZero (cfg : Bool) (ops : List Op) :
    ∀ (s : DBState), (∀ op ∈ ops, op.noEvict) → NodupIds s →
    ∀ (id : String) (m : MatchRow), getMatch s id = some m →
    m.status = MatchStatus.finished →
    countComp id (applyOps cfg ops s).2 = 0 := by
  induction ops with
  | nil => intro s _ _ id m _ _; rfl
  | cons op rest ih =>
    intro s hops hnd id m hm hfin
    obtain ⟨-, -, hkeep⟩ := applyOp8comp cfg op s id
      (hops op (List.mem_cons_self op rest)) hnd
    obtain ⟨hstep, q, hq, hqfin⟩ := hkeep m hm hfin
    have hrest := ih (applyOp cfg op s).1
      (fun o ho => hops o (List.mem_cons_of_mem _ ho))
      (applyOp_nodup cfg op s hnd) id q hq hqfin
    show countComp id ((applyOp cfg op s).2 ++
      (applyOps cfg rest (applyOp cfg op s).1).2) = 0
    rw [countComp_append, hstep, hrest]

/-- At-most-once accounting over any non-evicting operation sequence from
a store with unique ids. -/
theorem runOps8 (cfg : Bool) (ops : List Op) :
    ∀ (s : DBState), (∀ op ∈ ops, op.noEvict) → NodupIds s →
    ∀ (id : String),
    countDet id (applyOps cfg ops s).2 ≤ 1 ∧
    countComp id (applyOps cfg ops s).2 ≤ 1 := by
  induction ops with
  | nil => intro s _ _ id; exact ⟨Nat.zero_le 1, Nat.zero_le 1⟩
  | cons op rest ih =>
    intro s hops hnd id
    have hop := hops op (List.mem_cons_self op rest)
    have hops' : ∀ o ∈ rest, o.noEvict :=
      fun o ho => hops o (List.mem_cons_of_mem _ ho)
    have hnd' := applyOp_nodup cfg op s hnd
    obtain ⟨ihDet, ihComp⟩ := ih (applyOp cfg op s).1 hops' hnd' id
    obtain ⟨hdLe, hdOne, -⟩ := applyOp8det cfg op s id hop hnd
    obtain ⟨hcLe, hcOne, -⟩ := applyOp8comp cfg op s id hop hnd
    have hsplit : applyOps cfg (op :: rest) s =
        ((applyOps cfg rest (applyOp cfg op s).1).1,
         (applyOp cfg op s).2 ++ (applyOps cfg rest (applyOp cfg op s).1).2) := rfl
    rw [hsplit]
    simp only
    rw [countDet_append, countComp_append]
    constructor
    · rcases Nat.le_one_iff_eq_zero_or_eq_one.mp hdLe with h0 | h1
      · rw [h0]
        simpa using ihDet
      · obtain ⟨q, hq, hqal⟩ := hdOne h1
        have hz := runOpsDetZero cfg rest (applyOp cfg op s).1 hops' hnd' id q hq hqal
        rw [h1, hz]
    · rcases Nat.le_one_iff_eq_zero_or_eq_one.mp hcLe with h0 | h1
      · rw [h0]
        simpa using ihComp
      · obtain ⟨q, hq, hqfin⟩ := hcOne h1
        have hz := runOpsCompZero cfg rest (applyOp cfg op s).1 hops' hnd' id q hq hqfin
        rw [h1, hz]

/-- C8: over any run of the engine from an empty store consisting of
observations, finished-match checks and backfill passes (operations that
do not evict rows — an eviction by retention enforcement ends a record's
lifetime), at most one detection notification and at most one completion
notification are emitted for any given match id: `detectionNotified` and
`completionNotified` each fire at most once per event. -/
theorem claim_C8_alerts_at_most_once (cfg : Bool) (ops : List Op) (id : String)
    (hops : ∀ op ∈ ops, op.noEvict) :
    countDet id (applyOps cfg ops initDB).2 ≤ 1 ∧
    countComp id (applyOps cfg ops initDB).2 ≤ 1 :=
  runOps8 cfg ops initDB hops (by simp [NodupIds, initDB]) id

/-- C8 witness: a target detection on a fresh match followed by a repeat
observation and a finished-match pass yields at most one detection and at
most one completion notification for that match. -/
theorem claim_C8_witness :
    countDet "m1" (applyOps true
      [Op.observe 5 ⟨"m1", "b1", 1, "L", "H", "A", "0-0"⟩
         (some ⟨Rat.divInt 3 2, "1.8", "2.0", "0-0"⟩),
       Op.observe 6 ⟨"m1", "b1", 1, "L", "H", "A", "1-0"⟩
         (some ⟨Rat.divInt 3 2, "1.7", "2.1", "1-0"⟩),
       Op.finishCheck ⟨fun _ => none, 7⟩ []] initDB).2 ≤ 1 ∧
    countComp "m1" (applyOps true
      [Op.observe 5 ⟨"m1", "b1", 1, "L", "H", "A", "0-0"⟩
         (some ⟨Rat.divInt 3 2, "1.8", "2.0", "0-0"⟩),
       Op.observe 6 ⟨"m1", "b1", 1, "L", "H", "A", "1-0"⟩
         (some ⟨Rat.divInt 3 2, "1.7", "2.1", "1-0"⟩),
       Op.finishCheck ⟨fun _ => none, 7⟩ []] initDB).2 ≤ 1 :=
  claim_C8_alerts_at_most_once true
    [Op.observe 5 ⟨"m1", "b1", 1, "L", "H", "A", "0-0"⟩
       (some ⟨Rat.divInt 3 2, "1.8", "2.0", "0-0"⟩),
     Op.observe 6 ⟨"m1", "b1", 1, "L", "H", "A", "1-0"⟩
       (some ⟨Rat.divInt 3 2, "1.7", "2.1", "1-0"⟩),
     Op.finishCheck ⟨fun _ => none, 7⟩ []] "m1"
    (by
      intro op hop
      rcases List.mem_cons.mp hop with h | hop
      · rw [h]; exact trivial
      rcases List.mem_cons.mp hop with h | hop
      · rw [h]; exact trivial
      rcases List.mem_cons.mp hop with h | hop
      · rw [h]; exact trivial
      exact absurd hop (List.not_mem_nil op))

theorem detTimeLE_trans : ∀ (a b c : MatchRow),
    detTimeLE a b → detTimeLE b c → detTimeLE a c := by
  intro a b c h1 h2
  simp only [detTimeLE, decide_eq_true_eq] at *
  omega

theorem detTimeLE_total : ∀ (a b : MatchRow), detTimeLE a b || detTimeLE b a := by
  intro a b
  simp only [detTimeLE]
  rcases Nat.le_total a.detection_time b.detection_time with h | h <;> simp [h]

/-- The deletion-candidate list of `enforceMatchLimit` is sorted by
detection time. -/
theorem sortedFin_pairwise (s : DBState) :
    ((s.matchesTab.filter (fun m => decide (m.status = MatchStatus.finished))).mergeSort
      detTimeLE).Pairwise (fun a b => detTimeLE a b = true) :=
  List.sorted_mergeSort detTimeLE_trans detTimeLE_total _

/-- Branch shape of `enforceMatchLimit`. -/
theorem enforce_shape (maxM : Nat) (s : DBState) :
    (s.matchesTab.length ≤ maxM ∧ enforceMatchLimit maxM s = s) ∨
    (maxM < s.matchesTab.length ∧ (victimsOf maxM s).isEmpty = true ∧
      enforceMatchLimit maxM s = s) ∨
    (maxM < s.matchesTab.length ∧
      enforceMatchLimit maxM s =
        { matchesTab := s.matchesTab.filter
            (fun m => decide (¬ m.match_id ∈ victimsOf maxM s)),
          odds_history := s.odds_history.filter
            (fun h => decide (¬ h.match_id ∈ victimsOf maxM s)) }) := by
  by_cases h1 : s.matchesTab.length ≤ maxM
  · exact Or.inl ⟨h1, by simp only [enforceMatchLimit, if_pos h1]⟩
  · right
    by_cases h2 : (victimsOf maxM s).isEmpty = true
    · refine Or.inl ⟨by omega, h2, ?_⟩
      simp only [enforceMatchLimit]
      rw [if_neg h1]
      simp only [victimsOf] at h2
      rw [if_pos h2]
    · refine Or.inr ⟨by omega, ?_⟩
      simp only [enforceMatchLimit]
      rw [if_neg h1]
      simp only [victimsOf] at h2
      rw [if_neg h2]
      rfl

/-- A stored row whose id is in the victim list is itself among the
selected oldest finished rows. -/
theorem victim_row (maxM : Nat) (s : DBState) (hnd : NodupIds s) (m : MatchRow)
    (hm : m ∈ s.matchesTab) (hv : m.match_id ∈ victimsOf maxM s) :
    m ∈ (((s.matchesTab.filter
        (fun r => decide (r.status = MatchStatus.finished))).mergeSort
        detTimeLE).take (s.matchesTab.length - maxM)) ∧
    m.status = MatchStatus.finished := by
  simp only [victimsOf, List.mem_map] at hv
  obtain ⟨w, hw, hwid⟩ := hv
  have hwsrt : w ∈ (s.matchesTab.filter
      (fun r => decide (r.status = MatchStatus.finished))).mergeSort detTimeLE :=
    List.take_subset _ _ hw
  have hwfin : w ∈ s.matchesTab.filter
      (fun r => decide (r.status = MatchStatus.finished)) :=
    (List.mergeSort_perm _ detTimeLE).mem_iff.mp hwsrt
  have hwtab : w ∈ s.matchesTab := List.mem_of_mem_filter hwfin
  have hwst : w.status = MatchStatus.finished := by
    simpa using (List.mem_filter.mp hwfin).2
  have hwm : w = m := rows_unique s hnd hwtab hm hwid
  exact ⟨hwm ▸ hw, hwm ▸ hwst⟩

/-- Splitting a list's length over a decidable predicate and its
negation. -/
theorem length_filter_split {α : Type} (p : α → Bool) (l : List α) :
    (l.filter (fun a => ! p a)).length + (l.filter p).length = l.length := by
  induction l with
  | nil => rfl
  | cons x xs ih =>
    cases hx : p x <;> simp [List.filter_cons, hx] <;> omega

/-- When enough finished rows exist, the victim list has exactly
`total - maxMatches` entries. -/
theorem victims_length (maxM : Nat) (s : DBState)
    (hfin : s.matchesTab.length - maxM ≤
      (s.matchesTab.filter (fun m => decide (m.status = MatchStatus.finished))).length) :
    (victimsOf maxM s).length = s.matchesTab.length - maxM := by
  simp only [victimsOf, List.length_map, List.length_take]
  rw [(List.mergeSort_perm _ detTimeLE).length_eq]
  omega

theorem victims_nodup (maxM : Nat) (s : DBState) (hnd : NodupIds s) :
    (victimsOf maxM s).Nodup := by
  have h1 : ((s.matchesTab.filter
      (fun m => decide (m.status = MatchStatus.finished))).map
      (fun m => m.match_id)).Nodup :=
    List.Nodup.sublist ((List.filter_sublist _).map _) hnd
  have h2 : (((s.matchesTab.filter
      (fun m => decide (m.status = MatchStatus.finished))).mergeSort
      detTimeLE).map (fun m => m.match_id)).Nodup :=
    ((List.mergeSort_perm _ detTimeLE).map (fun m => m.match_id)).nodup_iff.mpr h1
  simp only [victimsOf]
  rw [List.map_take]
  exact List.Nodup.sublist (List.take_sublist _ _) h2

/-- Exactly one stored row is removed per victim id. -/
theorem removed_count (maxM : Nat) (s : DBState) (hnd : NodupIds s)
    (hfin : s.matchesTab.length - maxM ≤
      (s.matchesTab.filter (fun m => decide (m.status = MatchStatus.finished))).length) :
    (s.matchesTab.filter
      (fun m => decide (m.match_id ∈ victimsOf maxM s))).length =
      s.matchesTab.length - maxM := by
  have hA_nodup : ((s.matchesTab.filter
      (fun m => decide (m.match_id ∈ victimsOf maxM s))).map
      (fun m => m.match_id)).Nodup :=
    List.Nodup.sublist ((List.filter_sublist _).map _) hnd
  have hAsub : ((s.matchesTab.filter
      (fun m => decide (m.match_id ∈ victimsOf maxM s))).map
      (fun m => m.match_id)) ⊆ victimsOf maxM s := by
    intro a ha
    obtain ⟨r, hr, hrid⟩ := List.mem_map.mp ha
    have := of_decide_eq_true (List.mem_filter.mp hr).2
    exact hrid ▸ this
  have hVsub : victimsOf maxM s ⊆ ((s.matchesTab.filter
      (fun m => decide (m.match_id ∈ victimsOf maxM s))).map
      (fun m => m.match_id)) := by
    intro v hv
    have hv0 := hv
    simp only [victimsOf, List.mem_map] at hv
    obtain ⟨w, hw, hwid⟩ := hv
    have hwtab : w ∈ s.matchesTab :=
      List.mem_of_mem_filter
        ((List.mergeSort_perm _ detTimeLE).mem_iff.mp (List.take_subset _ _ hw))
    have hwp : w.match_id ∈ victimsOf maxM s := hwid ▸ hv0
    have hwf : w ∈ s.matchesTab.filter
        (fun m => decide (m.match_id ∈ victimsOf maxM s)) :=
      List.mem_filter.mpr ⟨hwtab, decide_eq_true hwp⟩
    exact hwid ▸ List.mem_map_of_mem (fun m => m.match_id) hwf
  have hlen1 := (List.subperm_of_subset hA_nodup hAsub).length_le
  have hlen2 := (List.subperm_of_subset (victims_nodup maxM s hnd) hVsub).length_le
  have hAlen : ((s.matchesTab.filter
      (fun m => decide (m.match_id ∈ victimsOf maxM s))).map
      (fun m => m.match_id)).length =
      (s.matchesTab.filter
        (fun m => decide (m.match_id ∈ victimsOf maxM s))).length :=
    List.length_map _ _
  rw [hAlen] at hlen1 hlen2
  rw [victims_length maxM s hfin] at hlen1 hlen2
  omega

/-- When enough finished rows exist, enforcement brings the store down to
exactly the configured maximum. -/
theorem enforce_length (maxM : Nat) (s : DBState) (hnd : NodupIds s)
    (hover : maxM < s.matchesTab.length)
    (hfin : s.matchesTab.length - maxM ≤
      (s.matchesTab.filter (fun m => decide (m.status = MatchStatus.finished))).length) :
    (enforceMatchLimit maxM s).matchesTab.length = maxM := by
  rcases enforce_shape maxM s with ⟨h1, -⟩ | ⟨-, hemp, -⟩ | ⟨-, heq⟩
  · omega
  · have hlen := victims_length maxM s hfin
    have hnil : victimsOf maxM s = [] := List.isEmpty_iff.mp hemp
    rw [hnil] at hlen
    simp at hlen
    omega
  · rw [heq]
    have hsplit := length_filter_split
      (fun m : MatchRow => decide (m.match_id ∈ victimsOf maxM s)) s.matchesTab
    have hrem := removed_count maxM s hnd hfin
    simp only [decide_not]
    simp only at hsplit
    omega

/-- C4: retention enforcement never deletes a live row; every evicted row
was finished, keeps no odds-history rows behind (history is deleted with
the match, so no dangling rows remain), and is no newer by detection time
than any finished row that is kept; and whenever the store is over the
configured maximum and at least `total - max` finished rows exist,
exactly that excess is removed, leaving exactly the maximum. -/
theorem claim_C4_retention_enforcement (maxM : Nat) (s : DBState)
    (hnd : NodupIds s) :
    (∀ m ∈ s.matchesTab, m.status = MatchStatus.live →
      m ∈ (enforceMatchLimit maxM s).matchesTab) ∧
    (∀ m ∈ s.matchesTab, m ∉ (enforceMatchLimit maxM s).matchesTab →
      m.status = MatchStatus.finished ∧
      (∀ h ∈ (enforceMatchLimit maxM s).odds_history, h.match_id ≠ m.match_id) ∧
      (∀ k ∈ (enforceMatchLimit maxM s).matchesTab,
        k.status = MatchStatus.finished → m.detection_time ≤ k.detection_time)) ∧
    (maxM < s.matchesTab.length →
      s.matchesTab.length - maxM ≤
        (s.matchesTab.filter (fun m => decide (m.status = MatchStatus.finished))).length →
      (enforceMatchLimit maxM s).matchesTab.length = maxM) := by
  refine ⟨?_, ?_, fun hover hfin => enforce_length maxM s hnd hover hfin⟩
  · intro m hm hlive
    rcases enforce_shape maxM s with ⟨-, heq⟩ | ⟨-, -, heq⟩ | ⟨-, heq⟩
    · rw [heq]; exact hm
    · rw [heq]; exact hm
    · rw [heq]
      have hnv : m.match_id ∉ victimsOf maxM s := by
        intro hv
        have hfin := (victim_row maxM s hnd m hm hv).2
        rw [hlive] at hfin
        exact MatchStatus.noConfusion hfin
      exact List.mem_filter.mpr ⟨hm, decide_eq_true hnv⟩
  · intro m hm hnot
    rcases enforce_shape maxM s with ⟨-, heq⟩ | ⟨-, -, heq⟩ | ⟨-, heq⟩
    · rw [heq] at hnot
      exact absurd hm hnot
    · rw [heq] at hnot
      exact absurd hm hnot
    · have hv : m.match_id ∈ victimsOf maxM s := by
        by_contra hnv
        refine hnot ?_
        rw [heq]
        exact List.mem_filter.mpr ⟨hm, decide_eq_true hnv⟩
      obtain ⟨htake, hfin⟩ := victim_row maxM s hnd m hm hv
      refine ⟨hfin, ?_, ?_⟩
      · intro h hh heqid
        rw [heq] at hh
        exact (of_decide_eq_true (List.mem_filter.mp hh).2) (heqid ▸ hv)
      · intro k hk hkfin
        rw [heq] at hk
        have hktab := List.mem_of_mem_filter hk
        have hknin : k.match_id ∉ victimsOf maxM s :=
          of_decide_eq_true (List.mem_filter.mp hk).2
        have hkfinmem : k ∈ s.matchesTab.filter
            (fun r => decide (r.status = MatchStatus.finished)) :=
          List.mem_filter.mpr ⟨hktab, decide_eq_true hkfin⟩
        have hksrt : k ∈ (s.matchesTab.filter
            (fun r => decide (r.status = MatchStatus.finished))).mergeSort detTimeLE :=
          (List.mergeSort_perm _ detTimeLE).mem_iff.mpr hkfinmem
        have hsplit := List.take_append_drop (s.matchesTab.length - maxM)
          ((s.matchesTab.filter
            (fun r => decide (r.status = MatchStatus.finished))).mergeSort detTimeLE)
        rw [← hsplit] at hksrt
        rcases List.mem_append.mp hksrt with hkt | hkd
        · exact absurd
            (show k.match_id ∈ victimsOf maxM s from
              List.mem_map_of_mem (fun m => m.match_id) hkt) hknin
        · have hpw := sortedFin_pairwise s
          rw [← hsplit] at hpw
          have := (List.pairwise_append.mp hpw).2.2 m htake k hkd
          simpa [detTimeLE] using this

/-- C4 witness: three stored rows (two finished, one live), maximum two:
the oldest finished row is evicted with its history, the live row and the
newer finished row survive, and the store shrinks to the maximum. -/
theorem claim_C4_witness :
    (∀ m ∈ (⟨[⟨"f1", none, 1, "H", "A", 5, none, none, some "1-0",
          MatchStatus.finished, some 1, some 0, none, false, false, false⟩,
        ⟨"f2", none, 1, "H", "A", 3, none, none, some "0-0",
          MatchStatus.finished, some 0, some 0, none, false, false, false⟩,
        ⟨"l1", none, 1, "H", "A", 9, none, none, some "0-0",
          MatchStatus.live, none, none, none, false, false, false⟩],
       [⟨"f2", Rat.divInt 3 2, Rat.divInt 2 1, 3⟩]⟩ : DBState).matchesTab,
      m.status = MatchStatus.live →
      m ∈ (enforceMatchLimit 2
        ⟨[⟨"f1", none, 1, "H", "A", 5, none, none, some "1-0",
            MatchStatus.finished, some 1, some 0, none, false, false, false⟩,
          ⟨"f2", none, 1, "H", "A", 3, none, none, some "0-0",
            MatchStatus.finished, some 0, some 0, none, false, false, false⟩,
          ⟨"l1", none, 1, "H", "A", 9, none, none, some "0-0",
            MatchStatus.live, none, none, none, false, false, false⟩],
         [⟨"f2", Rat.divInt 3 2, Rat.divInt 2 1, 3⟩]⟩).matchesTab) ∧
    (∀ m ∈ (⟨[⟨"f1", none, 1, "H", "A", 5, none, none, some "1-0",
          MatchStatus.finished, some 1, some 0, none, false, false, false⟩,
        ⟨"f2", none, 1, "H", "A", 3, none, none, some "0-0",
          MatchStatus.finished, some 0, some 0, none, false, false, false⟩,
        ⟨"l1", none, 1, "H", "A", 9, none, none, some "0-0",
          MatchStatus.live, none, none, none, false, false, false⟩],
       [⟨"f2", Rat.divInt 3 2, Rat.divInt 2 1, 3⟩]⟩ : DBState).matchesTab,
      m ∉ (enforceMatchLimit 2
        ⟨[⟨"f1", none, 1, "H", "A", 5, none, none, some "1-0",
            MatchStatus.finished, some 1, some 0, none, false, false, false⟩,
          ⟨"f2", none, 1, "H", "A", 3, none, none, some "0-0",
            MatchStatus.finished, some 0, some 0, none, false, false, false⟩,
          ⟨"l1", none, 1, "H", "A", 9, none, none, some "0-0",
            MatchStatus.live, none, none, none, false, false, false⟩],
         [⟨"f2", Rat.divInt 3 2, Rat.divInt 2 1, 3⟩]⟩).matchesTab →
      m.status = MatchStatus.finished ∧
      (∀ h ∈ (enforceMatchLimit 2
          ⟨[⟨"f1", none, 1, "H", "A", 5, none, none, some "1-0",
              MatchStatus.finished, some 1, some 0, none, false, false, false⟩,
            ⟨"f2", none, 1, "H", "A", 3, none, none, some "0-0",
              MatchStatus.finished, some 0, some 0, none, false, false, false⟩,
            ⟨"l1", none, 1, "H", "A", 9, none, none, some "0-0",
              MatchStatus.live, none, none, none, false, false, false⟩],
           [⟨"f2", Rat.divInt 3 2, Rat.divInt 2 1, 3⟩]⟩).odds_history,
        h.match_id ≠ m.match_id) ∧
      (∀ k ∈ (enforceMatchLimit 2
          ⟨[⟨"f1", none, 1, "H", "A", 5, none, none, some "1-0",
              MatchStatus.finished, some 1, some 0, none, false, false, false⟩,
            ⟨"f2", none, 1, "H", "A", 3, none, none, some "0-0",
              MatchStatus.finished, some 0, some 0, none, false, false, false⟩,
            ⟨"l1", none, 1, "H", "A", 9, none, none, some "0-0",
              MatchStatus.live, none, none, none, false, false, false⟩],
           [⟨"f2", Rat.divInt 3 2, Rat.divInt 2 1, 3⟩]⟩).matchesTab,
        k.status = MatchStatus.finished → m.detection_time ≤ k.detection_time)) ∧
    (2 < (⟨[⟨"f1", none, 1, "H", "A", 5, none, none, some "1-0",
          MatchStatus.finished, some 1, some 0, none, false, false, false⟩,
        ⟨"f2", none, 1, "H", "A", 3, none, none, some "0-0",
          MatchStatus.finished, some 0, some 0, none, false, false, false⟩,
        ⟨"l1", none, 1, "H", "A", 9, none, none, some "0-0",
          MatchStatus.live, none, none, none, false, false, false⟩],
       [⟨"f2", Rat.divInt 3 2, Rat.divInt 2 1, 3⟩]⟩ : DBState).matchesTab.length →
      (⟨[⟨"f1", none, 1, "H", "A", 5, none, none, some "1-0",
          MatchStatus.finished, some 1, some 0, none, false, false, false⟩,
        ⟨"f2", none, 1, "H", "A", 3, none, none, some "0-0",
          MatchStatus.finished, some 0, some 0, none, false, false, false⟩,
        ⟨"l1", none, 1, "H", "A", 9, none, none, some "0-0",
          MatchStatus.live, none, none, none, false, false, false⟩],
       [⟨"f2", Rat.divInt 3 2, Rat.divInt 2 1, 3⟩]⟩ : DBState).matchesTab.length - 2 ≤
        ((⟨[⟨"f1", none, 1, "H", "A", 5, none, none, some "1-0",
            MatchStatus.finished, some 1, some 0, none, false, false, false⟩,
          ⟨"f2", none, 1, "H", "A", 3, none, none, some "0-0",
            MatchStatus.finished, some 0, some 0, none, false, false, false⟩,
          ⟨"l1", none, 1, "H", "A", 9, none, none, some "0-0",
            MatchStatus.live, none, none, none, false, false, false⟩],
         [⟨"f2", Rat.divInt 3 2, Rat.divInt 2 1, 3⟩]⟩ : DBState).matchesTab.filter
          (fun m => decide (m.status = MatchStatus.finished))).length →
      (enforceMatchLimit 2
        ⟨[⟨"f1", none, 1, "H", "A", 5, none, none, some "1-0",
            MatchStatus.finished, some 1, some 0, none, false, false, false⟩,
          ⟨"f2", none, 1, "H", "A", 3, none, none, some "0-0",
            MatchStatus.finished, some 0, some 0, none, false, false, false⟩,
          ⟨"l1", none, 1, "H", "A", 9, none, none, some "0-0",
            MatchStatus.live, none, none, none, false, false, false⟩],
         [⟨"f2", Rat.divInt 3 2, Rat.divInt 2 1, 3⟩]⟩).matchesTab.length = 2) :=
  claim_C4_retention_enforcement 2
    ⟨[⟨"f1", none, 1, "H", "A", 5, none, none, some "1-0",
        MatchStatus.finished, some 1, some 0, none, false, false, false⟩,
      ⟨"f2", none, 1, "H", "A", 3, none, none, some "0-0",
        MatchStatus.finished, some 0, some 0, none, false, false, false⟩,
      ⟨"l1", none, 1, "H", "A", 9, none, none, some "0-0",
        MatchStatus.live, none, none, none, false, false, false⟩],
     [⟨"f2", Rat.divInt 3 2, Rat.divInt 2 1, 3⟩]⟩ (by decide)

end FifaBet
